import Mathlib

/-!
# PRRTE rsh launch component: launch-agent resolution

A shallow embedding of `src/mca/plm/rsh/plm_rsh_component.c` (namespace
`PlmRsh`), followed by the argument checks of `ompi/mpi/c/cart_coords.c`
(`CartCoords`), the tests of `test/dss/dss_cmp.c` (`Dss`) and the parser
documented in `src/util/cmd_line.h` (`CmdLine`).  The definitions of all four
come first, the theorems after them.

C strings are lists of characters (the bytes before the terminating NUL);
a `char **` argument vector is a list of C strings; a pointer that may be
`NULL` is an `Option`.  Calls that leave the process (the executable search on
the file system, the process environment, the MCA variable system) are fields
of `World`, and every call of `prrte_path_findv` is recorded in a trace so
that "is probed" and "is never probed" are statements about that trace.
-/

namespace PlmRsh

/-- The characters of a C string, terminator excluded. -/
abbrev CStr := List Char

/-- The NUL character that terminates a C string. -/
def NUL : Char := Char.ofNat 0

/-- `isspace` of `<ctype.h>` in the C locale: space, `\t`, `\n`, `\v`, `\f`, `\r`. -/
def isspace (c : Char) : Bool :=
  c == Char.ofNat 32 || c == Char.ofNat 9 || c == Char.ofNat 10 ||
  c == Char.ofNat 11 || c == Char.ofNat 12 || c == Char.ofNat 13

/-- What `strlen` and every other string function sees of a buffer: the
characters before the first NUL. -/
def cstr (buf : List Char) : CStr := buf.takeWhile (fun c => c != NUL)

/-- `strcasecmp(a, b) == 0`: equal after mapping upper-case ASCII letters to
lower case. -/
def strcasecmp_eq (a b : CStr) : Bool := a.map Char.toLower == b.map Char.toLower

/-- The pieces of `s` between occurrences of the delimiter `d`, empty pieces
kept. -/
def fields (d : Char) : CStr → List CStr
  | [] => [[]]
  | c :: cs =>
    if c == d then [] :: fields d cs
    else
      match fields d cs with
      | [] => [[c]]
      | f :: fs => (c :: f) :: fs

/-- Modelled from the spec: `prrte_argv_split` (declared in `src/util/argv.h`)
is not among the sources.  The spec has the candidate list "split on `:`" and a
candidate "split on whitespace into tokens": the string is cut at every
occurrence of the delimiter and the non-empty pieces are the tokens, in
order. -/
def prrte_argv_split (s : CStr) (d : Char) : List CStr :=
  (fields d s).filter (fun t => !t.isEmpty)

/-- Modelled from the spec: `prrte_string_copy(dest, src, len)` (declared in
`src/util/string_copy.h`) is not among the sources; it copies at most
`len - 1` characters of `src` and terminates the copy. -/
def prrte_string_copy (src : CStr) (len : Nat) : CStr := src.take (len - 1)

/-- Modelled from the spec: `prrte_basename` (declared in `src/util/basename.h`)
is not among the sources.  The spec has the canonical name of the resolved
executable, "`ssh` rather than `/usr/bin/ssh`": the part of the path after its
last `/`.  The result is never `NULL` for a string. -/
def prrte_basename (filename : CStr) : Option CStr :=
  some (filename.reverse.takeWhile (fun c => c != '/')).reverse

/-- Modelled from the spec: `prrte_argv_append_nosize` (declared in
`src/util/argv.h`) is not among the sources; it appends a copy of `arg` at the
end of the vector. -/
def prrte_argv_append_nosize (argv : List CStr) (arg : CStr) : List CStr := argv ++ [arg]

/-- Modelled from the spec: `prrte_argv_append_unique_nosize(&argv, arg, false)`
(declared in `src/util/argv.h`) is not among the sources.  The spec has the
flag appended "unless one is already present (case-insensitive check against
both the forwarding-enable and forwarding-disable spellings)": `arg` is
appended unless some element of the vector equals it case-insensitively, and
with `overwrite = false` a vector that has such an element is left as it is. -/
def prrte_argv_append_unique_nosize (argv : List CStr) (arg : CStr) : List CStr :=
  if argv.any (fun a => strcasecmp_eq arg a) then argv else prrte_argv_append_nosize argv arg

/-- The PRRTE return codes the component uses (`constants.h` is not among the
sources, so the codes are named, not numbered); `other` is any further code
that `prrte_mca_base_var_get_value` may hand back. -/
inductive Status where
  | PRRTE_SUCCESS
  | PRRTE_ERROR
  | PRRTE_ERR_NOT_FOUND
  | PRRTE_ERR_FATAL
  | other (code : Int)
  deriving DecidableEq, Repr

/-- The values of `prrte_mca_base_var_source_t`: where the value of an MCA
variable came from.  `DEFAULT` is the registered default; every other value
means the variable was set. -/
inductive VarSource where
  | DEFAULT
  | COMMAND_LINE
  | ENV
  | FILE
  | SET
  | OVERRIDE
  deriving DecidableEq, Repr

/-- Everything `plm_rsh_component.c` reads from outside the component. -/
structure World where
  /-- `prrte_path_findv(fname, X_OK, environ, wrkdir)`: the full path of the
  executable, or `NULL`. -/
  prrte_path_findv : CStr → CStr → Option CStr
  /-- What `getcwd` writes into the buffer. -/
  getcwd : CStr
  /-- The constant `PRRTE_PATH_MAX`. -/
  PRRTE_PATH_MAX : Nat
  /-- The process environment, `getenv`. -/
  getenv : CStr → Option CStr
  /-- The global `prrte_xterm`. -/
  prrte_xterm : Option CStr
  /-- `prrte_output_get_verbosity(prrte_plm_base_framework.framework_output)`. -/
  verbosity : Int
  /-- `prrte_mca_base_var_get_value(agent_var_id, NULL, &source, NULL)`: the
  return code and the source of the `agent` variable. -/
  agent_var_get_value : Status × VarSource
  /-- The value the configuration (command line, environment, parameter
  files) holds for the integer variable of this name, if it holds one. -/
  var_int : CStr → Option Int
  /-- The value the configuration holds for the boolean variable of this name,
  if it holds one. -/
  var_bool : CStr → Option Bool
  /-- The value the configuration holds for the string variable of this name,
  if it holds one. -/
  var_string : CStr → Option CStr

/-- One call of `prrte_path_findv`: the file name looked for and the working
directory passed with it. -/
structure Probe where
  fname : CStr
  wrkdir : CStr
  deriving DecidableEq, Repr

/-- First trimming loop of `prrte_plm_rsh_search`,
`for (j = 0; '\0' != line[j] && isspace(line[j]); ++line)`: `j` stays `0`
and the pointer `line` moves past every leading whitespace character. -/
def trim_front (line : CStr) : CStr := line.dropWhile isspace

/-- The body of the second trimming loop from position `j` on, `rest` being
`line[j..]`: while the character under `j` is whitespace it is overwritten with
NUL and `j` is INCREMENTED (`++j`).  The loop ends at the first character that
is not whitespace, at the latest at the terminator. -/
def zap_forward : List Char → List Char
  | [] => []
  | c :: rest => if isspace c then NUL :: zap_forward rest else c :: rest

/-- Second trimming loop of `prrte_plm_rsh_search`,
`for (j = strlen(line) - 2; j > 0 && isspace(line[j]); ++j) line[j] = '\0';`
on the buffer `line`: it starts at the LAST BUT ONE character, runs only when
that index is positive, and walks forward.  For a line of fewer than two
characters `j` is negative and the loop does not run. -/
def trim_back (line : CStr) : List Char :=
  let j : Int := (line.length : Int) - 2
  if j > 0 then line.take j.toNat ++ zap_forward (line.drop j.toNat) else line

/-- The candidate as the rest of the loop body sees it after both trimming
loops. -/
def trim_line (line : CStr) : CStr := cstr (trim_back (trim_front line))

/-- Result of `prrte_plm_rsh_search`: the argument vector (`NULL` when nothing
was found) and the calls of `prrte_path_findv` it made, in order. -/
structure SearchOut where
  argv : Option (List CStr)
  probes : List Probe
  deriving DecidableEq, Repr

/-- The loop `for (i = 0; NULL != lines[i]; ++i)` of `prrte_plm_rsh_search`. -/
def search_lines (w : World) (cwd : CStr) : List CStr → SearchOut
  | [] => ⟨none, []⟩
  | l :: rest =>
    let line := trim_line l
    if line.length ≤ 0 then search_lines w cwd rest
    else
      match prrte_argv_split line (Char.ofNat 32) with
      | [] =>
        -- tokens[0] would be NULL; a trimmed line that is not empty always has a
        -- first token (`argv_split_trim_line`), so this branch is never taken
        search_lines w cwd rest
      | t0 :: ts =>
        match w.prrte_path_findv t0 cwd with
        | some tmp => ⟨some (tmp :: ts), [⟨t0, cwd⟩]⟩
        | none =>
          let r := search_lines w cwd rest
          ⟨r.argv, ⟨t0, cwd⟩ :: r.probes⟩

/-- The start of `prrte_plm_rsh_search`: the buffer `cwd` holds the current
directory when `path` is `NULL` and a copy of `path` otherwise. -/
def search_cwd (w : World) (path : Option CStr) : CStr :=
  match path with
  | none => w.getcwd
  | some p => prrte_string_copy p w.PRRTE_PATH_MAX

/-- `prrte_plm_rsh_search(agent_list, path)`; `agent` is
`prrte_plm_rsh_component.agent`. -/
def prrte_plm_rsh_search (w : World) (agent : Option CStr)
    (agent_list : Option CStr) (path : Option CStr) : SearchOut :=
  match agent_list, agent with
  | none, none => ⟨none, []⟩
  | none, some a => search_lines w (search_cwd w path) (prrte_argv_split a ':')
  | some l, _ => search_lines w (search_cwd w path) (prrte_argv_split l ':')

/-- The token vectors the loop of `prrte_plm_rsh_search` computes for a list
of entries, in list order: each entry as the two trimming loops of the code
leave it (`trim_line`), the entries that are then empty skipped, split at
spaces.  This is what the code takes the candidates to be; what the spec takes
them to be is `spec_candidates`. -/
def candidates_of_lines (lines : List CStr) : List (List CStr) :=
  ((lines.map trim_line).filter (fun s => !s.isEmpty)).map
    (fun s => prrte_argv_split s (Char.ofNat 32))

/-- The token vectors the code computes for a colon-delimited list, in list
order. -/
def candidates (l : CStr) : List (List CStr) :=
  candidates_of_lines (prrte_argv_split l ':')

/-- The spec's "trim surrounding whitespace from each candidate": the entry
without the whitespace at its beginning and at its end. -/
def spec_trim (s : CStr) : CStr := ((s.dropWhile isspace).reverse.dropWhile isspace).reverse

/-- The pieces of `s` between whitespace characters, empty pieces kept. -/
def spec_fields : CStr → List CStr
  | [] => [[]]
  | c :: cs =>
    if isspace c then [] :: spec_fields cs
    else
      match spec_fields cs with
      | [] => [[c]]
      | f :: fs => (c :: f) :: fs

/-- The spec's "split on whitespace into tokens": the runs of characters that
are not whitespace, in order. -/
def spec_tokens (s : CStr) : List CStr := (spec_fields s).filter (fun t => !t.isEmpty)

/-- The candidates of a colon-delimited list in the words of the spec: "split
`candidateList` on `:`; trim surrounding whitespace from each candidate; skip
empty candidates; for each candidate, split on whitespace into tokens". -/
def spec_candidates (l : CStr) : List (List CStr) :=
  (((fields ':' l).map spec_trim).filter (fun s => !s.isEmpty)).map spec_tokens

/-- The probe of a candidate: its first token, looked for from `cwd`. -/
def probe_of (cwd : CStr) (cand : List CStr) : Probe := ⟨cand.headD [], cwd⟩

/-- The fields of `prrte_plm_rsh_component` (type `prrte_plm_rsh_component_t`)
that `plm_rsh_component.c` reads or writes, with the file-static
`prrte_plm_rsh_delay_string`. -/
structure Component where
  num_concurrent : Int
  force_rsh : Bool
  disable_qrsh : Bool
  daemonize_qrsh : Bool
  disable_llspawn : Bool
  daemonize_llspawn : Bool
  priority : Int
  delay_string : Option CStr
  no_tree_spawn : Bool
  agent : Option CStr
  assume_same_shell : Bool
  pass_environ_mca_params : Bool
  ssh_args : Option CStr
  pass_libpath : Option CStr
  chdir : Option CStr
  using_qrsh : Bool
  using_llspawn : Bool
  agent_argv : Option (List CStr)
  agent_path : Option CStr
  delay_tv_sec : Int
  delay_tv_nsec : Int
  deriving DecidableEq, Repr

/-- The block of `rsh_launch_agent_lookup` that follows the replacement of
`agent_argv[0]` by the basename ("see if we need to add an xterm argument"):
`argv` is `agent_argv` with the basename in position 0. -/
def xterm_argument (xterm : Option CStr) (verbosity : Int) (argv : List CStr) : List CStr :=
  match argv with
  | [] => []
  | bname :: rest =>
    if bname = "ssh".toList then
      if xterm.isSome then prrte_argv_append_unique_nosize argv "-X".toList
      else if 0 ≥ verbosity then
        -- for (i = 1; NULL != agent_argv[i]; ++i) if (0 == strcasecmp("-x", agent_argv[i])) break;
        if (rest.find? (fun a => strcasecmp_eq "-x".toList a)).isNone then
          prrte_argv_append_nosize argv "-x".toList
        else argv
      else argv
    else argv

/-- Result of `rsh_launch_agent_lookup`: the return code, the component
afterwards and the calls of `prrte_path_findv` made. -/
structure LookupOut where
  ret : Status
  comp : Component
  probes : List Probe
  deriving DecidableEq, Repr

/-- `rsh_launch_agent_lookup(agent_list, path)`. -/
def rsh_launch_agent_lookup (w : World) (comp : Component)
    (agent_list : Option CStr) (path : Option CStr) : LookupOut :=
  if agent_list.isNone && comp.agent.isNone then
    ⟨Status.PRRTE_ERR_NOT_FOUND, comp, []⟩
  else
    let s := prrte_plm_rsh_search w comp.agent agent_list path
    match s.argv with
    | none => ⟨Status.PRRTE_ERR_NOT_FOUND, { comp with agent_argv := none }, s.probes⟩
    | some [] =>
      -- agent_argv[0] would be NULL; the search never returns such a vector
      -- (`search_argv_ne_nil`), the basename of NULL is NULL
      ⟨Status.PRRTE_SUCCESS, { comp with agent_argv := some [], agent_path := none }, s.probes⟩
    | some (a0 :: rest) =>
      match prrte_basename a0 with
      | none =>
        ⟨Status.PRRTE_SUCCESS,
          { comp with agent_argv := some (a0 :: rest), agent_path := some a0 }, s.probes⟩
      | some bname =>
        ⟨Status.PRRTE_SUCCESS,
          { comp with
            agent_argv := some (xterm_argument w.prrte_xterm w.verbosity (bname :: rest)),
            agent_path := some a0 },
          s.probes⟩

/-- What `rsh_component_query` leaves in `*module`. -/
inductive ModulePtr where
  | NULL
  | prrte_plm_rsh_module
  deriving DecidableEq, Repr

/-- One call of `rsh_launch_agent_lookup`: its two arguments. -/
structure LookupCall where
  agent_list : Option CStr
  path : Option CStr
  deriving DecidableEq, Repr

/-- Result of `rsh_component_query`: the return code, what was written to
`*module` and `*priority` (`none`: not written), the component afterwards,
the code given to `PRRTE_FORCED_TERMINATE` if it was invoked, and the traces
of the calls of `rsh_launch_agent_lookup` and of `prrte_path_findv`. -/
structure QueryOut where
  ret : Status
  module : Option ModulePtr
  priority : Option Int
  comp : Component
  forced_terminate : Option Status
  lookups : List LookupCall
  probes : List Probe
  deriving DecidableEq, Repr

/-- The label `success:` of `rsh_component_query`. -/
def query_success (comp : Component) (lookups : List LookupCall) (probes : List Probe) :
    QueryOut :=
  ⟨Status.PRRTE_SUCCESS, some ModulePtr.prrte_plm_rsh_module, some comp.priority, comp, none,
    lookups, probes⟩

/-- The label `lookup:` of `rsh_component_query`. -/
def query_lookup (w : World) (comp : Component) : QueryOut :=
  let r := rsh_launch_agent_lookup w comp none none
  if r.ret ≠ Status.PRRTE_SUCCESS then
    if r.comp.agent.isSome then
      ⟨Status.PRRTE_ERR_FATAL, none, none, r.comp, some Status.PRRTE_ERR_NOT_FOUND,
        [⟨none, none⟩], r.probes⟩
    else
      ⟨Status.PRRTE_ERROR, some ModulePtr.NULL, none, r.comp, none, [⟨none, none⟩], r.probes⟩
  else query_success r.comp [⟨none, none⟩] r.probes

/-- `rsh_component_query(module, priority)`. -/
def rsh_component_query (w : World) (comp : Component) : QueryOut :=
  if w.agent_var_get_value.1 ≠ Status.PRRTE_SUCCESS then
    ⟨w.agent_var_get_value.1, none, none, comp, none, [], []⟩
  else if w.agent_var_get_value.2 ≠ VarSource.DEFAULT then
    query_lookup w comp
  else
    match comp.disable_qrsh, w.getenv "SGE_ROOT".toList, w.getenv "ARC".toList,
        w.getenv "PE_HOSTFILE".toList, w.getenv "JOB_ID".toList with
    | false, some sge_root, some arc, some _, some _ =>
      let tmp := sge_root ++ "/bin/".toList ++ arc
      let r := rsh_launch_agent_lookup w comp (some "qrsh".toList) (some tmp)
      if r.ret ≠ Status.PRRTE_SUCCESS then
        ⟨Status.PRRTE_ERROR, some ModulePtr.NULL, none, r.comp, none,
          [⟨some "qrsh".toList, some tmp⟩], r.probes⟩
      else
        query_success { r.comp with agent := some tmp, using_qrsh := true }
          [⟨some "qrsh".toList, some tmp⟩] r.probes
    | _, _, _, _, _ =>
      if !comp.disable_llspawn && (w.getenv "LOADL_STEP_ID".toList).isSome then
        let r := rsh_launch_agent_lookup w comp (some "llspawn".toList) none
        if r.ret ≠ Status.PRRTE_SUCCESS then
          ⟨Status.PRRTE_ERROR, some ModulePtr.NULL, none, r.comp, none,
            [⟨some "llspawn".toList, none⟩], r.probes⟩
        else
          query_success { r.comp with agent := some "llspawn".toList, using_llspawn := true }
            [⟨some "llspawn".toList, none⟩] r.probes
      else query_lookup w comp

/-- The test `!disable_qrsh && NULL != getenv("SGE_ROOT") && NULL != getenv("ARC")
&& NULL != getenv("PE_HOSTFILE") && NULL != getenv("JOB_ID")` of
`rsh_component_query`: the grid-engine rule. -/
def grid_engine_rule (w : World) (comp : Component) : Bool :=
  !comp.disable_qrsh && (w.getenv "SGE_ROOT".toList).isSome && (w.getenv "ARC".toList).isSome &&
    (w.getenv "PE_HOSTFILE".toList).isSome && (w.getenv "JOB_ID".toList).isSome

/-- The test `!disable_llspawn && NULL != getenv("LOADL_STEP_ID")` of
`rsh_component_query`: the resource-manager rule. -/
def resource_manager_rule (w : World) (comp : Component) : Bool :=
  !comp.disable_llspawn && (w.getenv "LOADL_STEP_ID".toList).isSome

/-- The string `prrte_asprintf(&tmp, "%s/bin/%s", getenv("SGE_ROOT"), getenv("ARC"))`
builds; an unset variable counts as the empty string here, the query formats
the string only when both are set. -/
def qrsh_path (w : World) : CStr :=
  (w.getenv "SGE_ROOT".toList).getD [] ++ "/bin/".toList ++ (w.getenv "ARC".toList).getD []

/-- Modelled from the spec: `prrte_mca_base_component_var_register` for an
integer variable is not among the sources.  The spec has the configuration
inputs "owned by an external configuration-loading collaborator", each with a
default: the storage keeps the default written just before the call unless the
configuration holds a value for the variable. -/
def var_register_int (w : World) (name : CStr) (storage : Int) : Int :=
  (w.var_int name).getD storage

/-- Modelled from the spec: `prrte_mca_base_component_var_register` for a
boolean variable, as `var_register_int`. -/
def var_register_bool (w : World) (name : CStr) (storage : Bool) : Bool :=
  (w.var_bool name).getD storage

/-- Modelled from the spec: `prrte_mca_base_component_var_register` for a string
variable, as `var_register_int`. -/
def var_register_string (w : World) (name : CStr) (storage : Option CStr) : Option CStr :=
  match w.var_string name with
  | some v => some v
  | none => storage

/-- The component before `rsh_component_register`: a zero-initialised static
object. -/
def initial_component : Component :=
  { num_concurrent := 0
    force_rsh := false
    disable_qrsh := false
    daemonize_qrsh := false
    disable_llspawn := false
    daemonize_llspawn := false
    priority := 0
    delay_string := none
    no_tree_spawn := false
    agent := none
    assume_same_shell := false
    pass_environ_mca_params := false
    ssh_args := none
    pass_libpath := none
    chdir := none
    using_qrsh := false
    using_llspawn := false
    agent_argv := none
    agent_path := none
    delay_tv_sec := 0
    delay_tv_nsec := 0 }

/-- `rsh_component_register()`: every variable gets its default and is then
registered; the return code is always `PRRTE_SUCCESS`. -/
def rsh_component_register (w : World) (comp : Component) : Status × Component :=
  (Status.PRRTE_SUCCESS,
    { comp with
      num_concurrent := var_register_int w "num_concurrent".toList 128
      force_rsh := var_register_bool w "force_rsh".toList false
      disable_qrsh := var_register_bool w "disable_qrsh".toList false
      daemonize_qrsh := var_register_bool w "daemonize_qrsh".toList false
      disable_llspawn := var_register_bool w "disable_llspawn".toList false
      daemonize_llspawn := var_register_bool w "daemonize_llspawn".toList false
      priority := var_register_int w "priority".toList 10
      delay_string := var_register_string w "delay".toList none
      no_tree_spawn := var_register_bool w "no_tree_spawn".toList false
      agent := var_register_string w "agent".toList (some "ssh : rsh".toList)
      assume_same_shell := var_register_bool w "assume_same_shell".toList true
      pass_environ_mca_params := var_register_bool w "pass_environ_mca_params".toList true
      ssh_args := var_register_string w "args".toList none
      pass_libpath := var_register_string w "pass_libpath".toList none
      chdir := var_register_string w "chdir".toList none })

/-- The largest value of the C type `long` (64 bits). -/
def LONG_MAX : Int := 9223372036854775807

/-- The smallest value of the C type `long` (64 bits). -/
def LONG_MIN : Int := -9223372036854775808

/-- A decimal digit, `'0'` to `'9'`. -/
def is_digit (c : Char) : Bool := 48 ≤ c.toNat && c.toNat ≤ 57

/-- The value of a decimal digit. -/
def digit_val (c : Char) : Nat := c.toNat - 48

/-- The number a run of decimal digits is read as, most significant digit
first: what the conversion loop of `strtol` accumulates. -/
def digits_value (ds : List Char) : Nat := ds.foldl (fun acc c => 10 * acc + digit_val c) 0

/-- Result of `strtol(nptr, &endptr, 10)`: the value returned and `endptr` as an
offset into `nptr`. -/
structure StrtolOut where
  value : Int
  endptr : Nat
  deriving DecidableEq, Repr

/-- The sign and digits part of `strtol`, on the string that follows the
leading whitespace; `skipped` is the number of whitespace characters before
it.  Without a digit no conversion is performed: the value is `0` and `endptr`
is `nptr`.  A value outside the range of `long` is returned as `LONG_MAX` or
`LONG_MIN`. -/
def strtol_subject (skipped : Nat) (s : CStr) : StrtolOut :=
  let neg : Bool := s.head? == some '-'
  let signed : Bool := s.head? == some '-' || s.head? == some '+'
  let body := if signed then s.tail else s
  let ds := body.takeWhile is_digit
  if ds.isEmpty then ⟨0, 0⟩
  else
    let v : Int := if neg then -(digits_value ds : Int) else (digits_value ds : Int)
    ⟨max LONG_MIN (min LONG_MAX v), skipped + (if signed then 1 else 0) + ds.length⟩

/-- `strtol(nptr, &endptr, 10)` of the C library, with a 64-bit `long`: leading
whitespace is skipped, then an optional sign and the longest run of decimal
digits are converted. -/
def strtol (nptr : CStr) : StrtolOut :=
  strtol_subject (nptr.takeWhile isspace).length (nptr.dropWhile isspace)

/-- A `long` product as the machine computes it: the low 64 bits, read as a
signed number.  (Overflow of a signed product is undefined in C; this is what
the usual targets do.) -/
def wrap_long (x : Int) : Int := (x + 9223372036854775808) % 18446744073709551616 - 9223372036854775808

/-- Result of `rsh_component_open`: the return code, the component afterwards
and the topics of the messages shown through `prrte_show_help`. -/
structure OpenOut where
  ret : Status
  comp : Component
  help : List CStr
  deriving DecidableEq, Repr

/-- The delay part of `rsh_component_open`, for a delay string that is not
`NULL`. -/
def open_delay (comp : Component) (delay_string : CStr) : Component :=
  let r := strtol delay_string
  -- delay.tv_sec = strtol(...); if (ctmp == prrte_plm_rsh_delay_string) delay.tv_sec = 0;
  let comp1 := { comp with delay_tv_sec := if r.endptr = 0 then 0 else r.value }
  -- if (':' == ctmp[0]) delay.tv_nsec = 1000 * strtol(ctmp + 1, NULL, 10);
  if (delay_string.drop r.endptr).head? = some ':' then
    { comp1 with
      delay_tv_nsec := wrap_long (1000 * (strtol (delay_string.drop (r.endptr + 1))).value) }
  else comp1

/-- `rsh_component_open()`. -/
def rsh_component_open (comp : Component) : OpenOut :=
  let comp1 := { comp with using_qrsh := false, using_llspawn := false, agent_argv := none }
  let bad : Bool := decide (comp1.num_concurrent ≤ 0)
  let comp2 := if bad then { comp1 with num_concurrent := 1 } else comp1
  let comp3 := match comp2.delay_string with
    | none => comp2
    | some s => open_delay comp2 s
  ⟨Status.PRRTE_SUCCESS, comp3,
    if bad then ["concurrency-less-than-zero".toList] else []⟩

/-- The strings that write a decimal integer, given as a sign part and a digit
part: the sign part is empty, `+` or `-`, the digit part is one or more decimal
digits. -/
def is_numeral (sg ds : CStr) : Bool :=
  (sg == [] || sg == ['+'] || sg == ['-']) && !ds.isEmpty && ds.all is_digit

/-- The integer such a string denotes, through `Nat.ofDigits` (which takes the
least significant digit first). -/
def numeral_value (sg ds : CStr) : Int :=
  if sg = ['-'] then -((Nat.ofDigits (10 : Nat) (ds.map digit_val).reverse : Nat) : Int)
  else ((Nat.ofDigits (10 : Nat) (ds.map digit_val).reverse : Nat) : Int)

/-- A world for worked examples: the executable search finds exactly the names
listed in `tbl`, whatever the working directory, the environment holds the
variables of `env` and the current directory is `/home/user`. -/
def example_world (tbl : List (CStr × CStr)) (env : List (CStr × CStr))
    (xterm : Option CStr) (verbosity : Int) (source : VarSource) : World :=
  { prrte_path_findv := fun fname _ => tbl.lookup fname
    getcwd := "/home/user".toList
    PRRTE_PATH_MAX := 4097
    getenv := fun name => env.lookup name
    prrte_xterm := xterm
    verbosity := verbosity
    agent_var_get_value := (Status.PRRTE_SUCCESS, source)
    var_int := fun _ => none
    var_bool := fun _ => none
    var_string := fun _ => none }

/-- A world in which `ssh` and `rsh` are installed in `/usr/bin`. -/
def ssh_rsh_world (xterm : Option CStr) (verbosity : Int) (source : VarSource) : World :=
  example_world [("ssh".toList, "/usr/bin/ssh".toList), ("rsh".toList, "/usr/bin/rsh".toList)]
    [] xterm verbosity source

/-- A world in which only `rsh` is installed. -/
def rsh_world : World :=
  example_world [("rsh".toList, "/usr/bin/rsh".toList)] [] none 0 VarSource.DEFAULT

/-- A world inside a Grid Engine job that is also a LoadLeveler step, with
`qrsh`, `llspawn`, `ssh` and `rsh` all installed, and the `agent` variable set
on the command line. -/
def grid_engine_world : World :=
  example_world
    [("qrsh".toList, "/sge/bin/lx/qrsh".toList), ("llspawn".toList, "/usr/bin/llspawn".toList),
      ("ssh".toList, "/usr/bin/ssh".toList), ("rsh".toList, "/usr/bin/rsh".toList)]
    [("SGE_ROOT".toList, "/sge".toList), ("ARC".toList, "lx".toList),
      ("PE_HOSTFILE".toList, "/tmp/hosts".toList), ("JOB_ID".toList, "42".toList),
      ("LOADL_STEP_ID".toList, "7".toList)]
    none 0 VarSource.COMMAND_LINE

/-- A world inside a Grid Engine job that is also a LoadLeveler step, with
`qrsh`, `llspawn`, `ssh` and `rsh` all installed, and the `agent` variable
left at its default. -/
def grid_engine_default_world : World :=
  example_world
    [("qrsh".toList, "/sge/bin/lx/qrsh".toList), ("llspawn".toList, "/usr/bin/llspawn".toList),
      ("ssh".toList, "/usr/bin/ssh".toList), ("rsh".toList, "/usr/bin/rsh".toList)]
    [("SGE_ROOT".toList, "/sge".toList), ("ARC".toList, "lx".toList),
      ("PE_HOSTFILE".toList, "/tmp/hosts".toList), ("JOB_ID".toList, "42".toList),
      ("LOADL_STEP_ID".toList, "7".toList)]
    none 0 VarSource.DEFAULT

/-- A world inside a Grid Engine job in which `qrsh` is not installed while
`ssh` and `rsh` are, the `agent` variable left at its default. -/
def grid_engine_no_qrsh_world : World :=
  example_world
    [("ssh".toList, "/usr/bin/ssh".toList), ("rsh".toList, "/usr/bin/rsh".toList)]
    [("SGE_ROOT".toList, "/sge".toList), ("ARC".toList, "lx".toList),
      ("PE_HOSTFILE".toList, "/tmp/hosts".toList), ("JOB_ID".toList, "42".toList)]
    none 0 VarSource.DEFAULT

/-- A world inside a LoadLeveler step, outside Grid Engine, with `llspawn`,
`ssh` and `rsh` installed and the `agent` variable left at its default. -/
def loadleveler_world : World :=
  example_world
    [("llspawn".toList, "/usr/bin/llspawn".toList), ("ssh".toList, "/usr/bin/ssh".toList),
      ("rsh".toList, "/usr/bin/rsh".toList)]
    [("LOADL_STEP_ID".toList, "7".toList)]
    none 0 VarSource.DEFAULT

/-- A world with no launch agent installed and an empty environment. -/
def bare_world (source : VarSource) : World := example_world [] [] none 0 source

/-- A component as `rsh_component_register` and `rsh_component_open` leave it,
with the given agent list. -/
def example_component (agent : Option CStr) : Component :=
  { num_concurrent := 128
    force_rsh := false
    disable_qrsh := false
    daemonize_qrsh := false
    disable_llspawn := false
    daemonize_llspawn := false
    priority := 10
    delay_string := none
    no_tree_spawn := false
    agent := agent
    assume_same_shell := true
    pass_environ_mca_params := true
    ssh_args := none
    pass_libpath := none
    chdir := none
    using_qrsh := false
    using_llspawn := false
    agent_argv := none
    agent_path := none
    delay_tv_sec := 0
    delay_tv_nsec := 0 }

/-- A component as registration leaves it, with the given delay string. -/
def delay_component (delay : CStr) : Component :=
  { example_component (some "ssh : rsh".toList) with delay_string := some delay }

end PlmRsh

/-! # `MPI_Cart_coords`: the argument checks

A shallow embedding of `ompi/mpi/c/cart_coords.c`. -/

namespace CartCoords

/-- The MPI error codes `MPI_Cart_coords` names (`mpi.h` is not among the
sources, so the codes are named, not numbered); `other` is any further code
the topology module may return. -/
inductive MpiCode where
  | MPI_SUCCESS
  | MPI_ERR_COMM
  | MPI_ERR_TOPOLOGY
  | MPI_ERR_ARG
  | MPI_ERR_RANK
  | other (code : Int)
  deriving DecidableEq, Repr

/-- What `MPI_Cart_coords` reads of a communicator: `ompi_comm_invalid(comm)`,
`OMPI_COMM_IS_INTER(comm)`, `OMPI_COMM_IS_CART(comm)`,
`ompi_group_size(comm->c_local_group)` and the function
`comm->c_topo->topo_cart_coords`, which gets `rank`, `maxdims` and the buffer
`coords` (`none` for `NULL`) and gives back its return code and the buffer. -/
structure Communicator where
  invalid : Bool
  is_inter : Bool
  is_cart : Bool
  local_group_size : Int
  topo_cart_coords : Int → Int → Option (List Int) → MpiCode × Option (List Int)

/-- The communicator an error handler is invoked on: `MPI_COMM_WORLD` or the
communicator passed to the call. -/
inductive ErrhandlerComm where
  | MPI_COMM_WORLD
  | comm
  deriving DecidableEq, Repr

/-- What `MPI_Cart_coords` returns: `MPI_SUCCESS`, or the value of
`OMPI_ERRHANDLER_INVOKE(comm, errcode, FUNC_NAME)`, kept as the invocation
itself (the macro is not among the sources; an error handler that returns
hands back `errcode`), or the end of the call inside
`OMPI_ERR_INIT_FINALIZE`. -/
inductive Returned where
  | MPI_SUCCESS
  | errhandler_invoke (handler_comm : ErrhandlerComm) (errcode : MpiCode)
  | init_finalize
  deriving DecidableEq, Repr

/-- Result of `MPI_Cart_coords`: what is returned, the buffer `coords`
afterwards, and the calls of the topology module's function made, each with
its `rank` and `maxdims`. -/
structure CartOut where
  ret : Returned
  coords : Option (List Int)
  func_calls : List (Int × Int)
  deriving DecidableEq, Repr

/-- The end of `MPI_Cart_coords`: the call of the topology module's function. -/
def call_topo (comm : Communicator) (rank maxdims : Int) (coords : Option (List Int)) :
    CartOut :=
  let r := comm.topo_cart_coords rank maxdims coords
  if r.1 ≠ MpiCode.MPI_SUCCESS then
    ⟨Returned.errhandler_invoke ErrhandlerComm.comm r.1, r.2, [(rank, maxdims)]⟩
  else ⟨Returned.MPI_SUCCESS, r.2, [(rank, maxdims)]⟩

/-- `MPI_Cart_coords(comm, rank, maxdims, coords)`.  `param_check` is
`MPI_PARAM_CHECK`; `init_finalize_error` says whether `OMPI_ERR_INIT_FINALIZE`
(a macro that is not among the sources) ends the call. -/
def MPI_Cart_coords (param_check : Bool) (init_finalize_error : Bool) (comm : Communicator)
    (rank maxdims : Int) (coords : Option (List Int)) : CartOut :=
  if param_check then
    if init_finalize_error then ⟨Returned.init_finalize, coords, []⟩
    else if comm.invalid then
      ⟨Returned.errhandler_invoke ErrhandlerComm.MPI_COMM_WORLD MpiCode.MPI_ERR_COMM, coords, []⟩
    else if comm.is_inter then
      ⟨Returned.errhandler_invoke ErrhandlerComm.comm MpiCode.MPI_ERR_COMM, coords, []⟩
    else if !comm.is_cart then
      ⟨Returned.errhandler_invoke ErrhandlerComm.comm MpiCode.MPI_ERR_TOPOLOGY, coords, []⟩
    else if 0 > maxdims ∨ (0 < maxdims ∧ coords = none) then
      ⟨Returned.errhandler_invoke ErrhandlerComm.comm MpiCode.MPI_ERR_ARG, coords, []⟩
    else if 0 > rank ∨ rank > comm.local_group_size then
      ⟨Returned.errhandler_invoke ErrhandlerComm.comm MpiCode.MPI_ERR_RANK, coords, []⟩
    else call_topo comm rank maxdims coords
  else call_topo comm rank maxdims coords

/-- A valid cartesian intra-communicator with a local group of `size`
processes, whose topology module succeeds and leaves the buffer alone. -/
def example_cart (size : Int) : Communicator :=
  { invalid := false
    is_inter := false
    is_cart := true
    local_group_size := size
    topo_cart_coords := fun _ _ coords => (MpiCode.MPI_SUCCESS, coords) }

end CartCoords

/-! # The comparison of typed values

The tests of `test/dss/dss_cmp.c`, and a model of the function they call. -/

namespace Dss

/-- The results of `orte_dss.compare` the tests name (`orte_constants.h` is not
among the sources, so they are named, not numbered). -/
inductive CompareResult where
  | ORTE_EQUAL
  | ORTE_VALUE1_GREATER
  | ORTE_VALUE2_GREATER
  deriving DecidableEq, Repr

/-- The integer-like values of `orte_data_type_t`. -/
inductive orte_data_type_t where
  | ORTE_INT8
  | ORTE_INT16
  | ORTE_INT32
  | ORTE_INT64
  | ORTE_UINT8
  | ORTE_UINT16
  | ORTE_UINT32
  | ORTE_UINT64
  | ORTE_INT
  | ORTE_UINT
  | ORTE_SIZE
  | ORTE_PID
  | ORTE_DAEMON_CMD
  | ORTE_DATA_TYPE
  deriving DecidableEq, Repr

/-- The width in bits of the C type the tests declare for each data type:
`int8_t` to `int64_t`, `uint8_t` to `uint64_t`, `int`, `uint`, `size_t`,
`pid_t`, `orte_daemon_cmd_flag_t` (taken as 16 bits) and `orte_data_type_t`
(taken as 8 bits); the last two typedefs are not among the sources. -/
def type_bits : orte_data_type_t → Nat
  | .ORTE_INT8 => 8
  | .ORTE_INT16 => 16
  | .ORTE_INT32 => 32
  | .ORTE_INT64 => 64
  | .ORTE_UINT8 => 8
  | .ORTE_UINT16 => 16
  | .ORTE_UINT32 => 32
  | .ORTE_UINT64 => 64
  | .ORTE_INT => 32
  | .ORTE_UINT => 32
  | .ORTE_SIZE => 64
  | .ORTE_PID => 32
  | .ORTE_DAEMON_CMD => 16
  | .ORTE_DATA_TYPE => 8

/-- Whether the C type of a data type is signed. -/
def type_signed : orte_data_type_t → Bool
  | .ORTE_INT8 => true
  | .ORTE_INT16 => true
  | .ORTE_INT32 => true
  | .ORTE_INT64 => true
  | .ORTE_INT => true
  | .ORTE_PID => true
  | _ => false

/-- The smallest number of a data type. -/
def type_min (t : orte_data_type_t) : Int :=
  if type_signed t then -(2 : Int) ^ (type_bits t - 1) else 0

/-- The largest number of a data type. -/
def type_max (t : orte_data_type_t) : Int :=
  if type_signed t then (2 : Int) ^ (type_bits t - 1) - 1 else (2 : Int) ^ type_bits t - 1

/-- The object a number is stored as: its low `type_bits` bits (two's
complement for a negative number). -/
def store (t : orte_data_type_t) (v : Int) : Nat := (v % (2 : Int) ^ type_bits t).toNat

/-- The number an object of a data type holds. -/
def load (t : orte_data_type_t) (raw : Nat) : Int :=
  if type_signed t && decide (2 ^ (type_bits t - 1) ≤ raw) then (raw : Int) - (2 : Int) ^ type_bits t
  else (raw : Int)

/-- Modelled from the spec: `orte_dss.compare` is not among the sources, only
the tests that call it are, and the spec names "the generic
typed-value/comparison subsystem" as an external collaborator without
describing it.  The model reads the two objects as numbers of the C type of
`type` and orders them, which is what the tests expect of it. -/
def orte_dss_compare (value1 value2 : Nat) (type : orte_data_type_t) : CompareResult :=
  if load type value1 > load type value2 then CompareResult.ORTE_VALUE1_GREATER
  else if load type value2 > load type value1 then CompareResult.ORTE_VALUE2_GREATER
  else CompareResult.ORTE_EQUAL

/-- The three comparisons every test makes with one type: `v1 = v2`,
`v1 = v2 + 1`, `v1 = v2 - 1`, each followed by
`if (expected != orte_dss.compare(&v1, &v2, type)) return(false);`. -/
def three_comparisons (compare : Nat → Nat → orte_data_type_t → CompareResult)
    (type : orte_data_type_t) (v2 : Int) : Bool :=
  if CompareResult.ORTE_EQUAL ≠ compare (store type v2) (store type v2) type then false
  else if CompareResult.ORTE_VALUE1_GREATER ≠
      compare (store type (load type (store type v2) + 1)) (store type v2) type then false
  else if CompareResult.ORTE_VALUE2_GREATER ≠
      compare (store type (load type (store type v2) - 1)) (store type v2) type then false
  else true

/-- `test1()`: `int8_t v2=100` with `ORTE_INT8`, then `uint8_t u2=150` with
`ORTE_UINT8`. -/
def test1 (compare : Nat → Nat → orte_data_type_t → CompareResult) : Bool :=
  three_comparisons compare orte_data_type_t.ORTE_INT8 100 &&
    three_comparisons compare orte_data_type_t.ORTE_UINT8 150

/-- `test4()`: `int64_t v2=100` with `ORTE_INT64`, then `uint64_t u2=150` with
`ORTE_UINT64`. -/
def test4 (compare : Nat → Nat → orte_data_type_t → CompareResult) : Bool :=
  three_comparisons compare orte_data_type_t.ORTE_INT64 100 &&
    three_comparisons compare orte_data_type_t.ORTE_UINT64 150

/-- `test5()`: `int v2=100` with `ORTE_INT`, then `uint u2=150` with
`ORTE_UINT`. -/
def test5 (compare : Nat → Nat → orte_data_type_t → CompareResult) : Bool :=
  three_comparisons compare orte_data_type_t.ORTE_INT 100 &&
    three_comparisons compare orte_data_type_t.ORTE_UINT 150

/-- `test8()`: `size_t v2=100` with `ORTE_SIZE`. -/
def test8 (compare : Nat → Nat → orte_data_type_t → CompareResult) : Bool :=
  three_comparisons compare orte_data_type_t.ORTE_SIZE 100

end Dss

/-! # The command line parser

The types of `src/util/cmd_line.h`, and a model of the parser the header
documents. -/

namespace CmdLine

open PlmRsh (CStr)

/-- The return codes the header documents for the parser and for
`prrte_cmd_line_get_tail`. -/
inductive CmdStatus where
  | PRRTE_SUCCESS
  | PRRTE_ERR_SILENT
  | PRRTE_ERROR
  deriving DecidableEq, Repr

/-- `prrte_cmd_line_type_t`: "Data types supported by the parser". -/
inductive prrte_cmd_line_type_t where
  | PRRTE_CMD_LINE_TYPE_NULL
  | PRRTE_CMD_LINE_TYPE_STRING
  | PRRTE_CMD_LINE_TYPE_INT
  | PRRTE_CMD_LINE_TYPE_SIZE_T
  | PRRTE_CMD_LINE_TYPE_BOOL
  | PRRTE_CMD_LINE_TYPE_MAX
  deriving DecidableEq, Repr

/-- The fields of `prrte_cmd_line_option_t` the parser needs: the short name
(NUL for none), the long name (`NULL` for none), the number of parameters and
the type of the parameters.  The description and the help category are left
out. -/
structure prrte_cmd_line_option_t where
  clo_short_name : Char
  clo_long_name : Option CStr
  clo_num_params : Nat
  clo_type : prrte_cmd_line_type_t
  deriving DecidableEq, Repr

/-- `prrte_cmd_line_param_t`: an option that was used in the argv parsed, with
the token that named it and its values. -/
structure prrte_cmd_line_param_t where
  clp_arg : CStr
  clp_option : prrte_cmd_line_option_t
  clp_values : List CStr
  deriving DecidableEq, Repr

/-- `prrte_cmd_line_t`, without the object header and the mutex. -/
structure prrte_cmd_line_t where
  lcl_options : List prrte_cmd_line_option_t
  lcl_argc : Nat
  lcl_argv : List CStr
  lcl_params : List prrte_cmd_line_param_t
  lcl_tail_argc : Nat
  lcl_tail_argv : List CStr
  deriving DecidableEq, Repr

/-- The registered option with the long name `name`: "a multi-character name
that is found after a pair of dashes". -/
def find_long (options : List prrte_cmd_line_option_t) (name : CStr) :
    Option prrte_cmd_line_option_t :=
  if name.isEmpty then none else options.find? (fun o => o.clo_long_name == some name)

/-- The registered option with the short name `c`: "a single letter", NUL
standing for "no short name". -/
def find_short (options : List prrte_cmd_line_option_t) (c : Char) :
    Option prrte_cmd_line_option_t :=
  if c == PlmRsh.NUL then none else options.find? (fun o => o.clo_short_name == c)

/-- Modelled from the spec: how a token names a registered option is part of
the parser, which is not among the sources; the model follows the header.  The
long name is "found after a pair of dashes" and the short name is "a single
letter [...] found after a single dash".  A token that does not start with a
dash names nothing.  The option type of this header has a short and a long
name only, so there is no "single dash" name to look for. -/
def find_option (options : List prrte_cmd_line_option_t) (token : CStr) :
    Option prrte_cmd_line_option_t :=
  match token with
  | '-' :: '-' :: name => find_long options name
  | ['-', c] => find_short options c
  | _ => none

/-- Modelled from the spec: "multiple short names can be combined into a
single command line argument (e.g., `-abc` can be equivalent to `-a -b -c`)",
while a token such as `-my-mpi-program` "will cause an error, because mpirun
won't find single-letter options registered for some/all of those letters".
A token combines short names when it is a single dash followed by two or more
characters, every one of them a registered short name. -/
def is_combined (options : List prrte_cmd_line_option_t) (token : CStr) : Bool :=
  match token with
  | '-' :: c :: d :: ds =>
    c != '-' && (c :: d :: ds).all (fun x => (find_short options x).isSome)
  | _ => false

/-- The tokens a combined token stands for: `-a`, `-b`, `-c` for `-abc`. -/
def short_tokens (token : CStr) : List CStr := (token.drop 1).map (fun x => ['-', x])

/-- Whether the parameters of an option of this type are integers:
`PRRTE_CMD_LINE_TYPE_INT` and `PRRTE_CMD_LINE_TYPE_SIZE_T`. -/
def integer_type (t : prrte_cmd_line_type_t) : Bool :=
  t == prrte_cmd_line_type_t.PRRTE_CMD_LINE_TYPE_INT ||
    t == prrte_cmd_line_type_t.PRRTE_CMD_LINE_TYPE_SIZE_T

/-- Modelled from the spec: the header stops the parse when "a parameter
registered with an integer type option finds a non-integer option token" and
does not say what an integer token is; the model takes the decimal numerals,
one or more digits after an optional sign. -/
def is_integer_token (t : CStr) : Bool :=
  match t with
  | '-' :: ds => PlmRsh.is_numeral ['-'] ds
  | '+' :: ds => PlmRsh.is_numeral ['+'] ds
  | ds => PlmRsh.is_numeral [] ds

/-- Why the parser stopped: the five conditions the header lists. -/
inductive StopReason where
  | all_processed
  | dash_dash
  | unrecognized
  | not_integer
  | missing_params
  deriving DecidableEq, Repr

/-- An option whose parameters are being collected: the entry under
construction and the number of parameters still expected (at least one). -/
structure Collecting where
  param : prrte_cmd_line_param_t
  expected : Nat
  deriving DecidableEq, Repr

/-- How the parser goes on after a token: with the next token, `current` being
the option then collecting its parameters, or not at all, with the reason of
the stop and what this token puts in the tail. -/
inductive Outcome where
  | proceed (current : Option Collecting)
  | stop (reason : StopReason) (tail : List CStr)
  deriving DecidableEq, Repr

/-- What the parser does with one or more tokens: the options it records, and
how it goes on. -/
structure Step where
  recorded : List prrte_cmd_line_param_t
  outcome : Outcome
  deriving DecidableEq, Repr

/-- Modelled from the spec: what the parser does with one token that is not a
combination of short names; the model follows the header.  While an option
collects its parameters the token is a parameter, not looked at as an option
(the header has `--` "parsed as the third parameter" of an option that expects
three), and the parse stops when "a parameter registered with an integer
type option finds a non-integer option token".  Otherwise the parse stops when
"the token `--` is found" and when "an unrecognized token is found", and a
registered option is recorded, at once if it takes no parameter and with its
last parameter if it takes some.  The token that stops the parse goes to the
tail, except `--`. -/
def step (options : List prrte_cmd_line_option_t) (current : Option Collecting)
    (tok : CStr) : Step :=
  match current with
  | some c =>
    if integer_type c.param.clp_option.clo_type && !is_integer_token tok then
      ⟨[], Outcome.stop StopReason.not_integer [tok]⟩
    else if c.expected ≤ 1 then
      ⟨[{ c.param with clp_values := c.param.clp_values ++ [tok] }], Outcome.proceed none⟩
    else
      ⟨[], Outcome.proceed
        (some ⟨{ c.param with clp_values := c.param.clp_values ++ [tok] }, c.expected - 1⟩)⟩
  | none =>
    if tok = "--".toList then ⟨[], Outcome.stop StopReason.dash_dash []⟩
    else
      match find_option options tok with
      | none => ⟨[], Outcome.stop StopReason.unrecognized [tok]⟩
      | some o =>
        if o.clo_num_params = 0 then ⟨[⟨tok, o, []⟩], Outcome.proceed none⟩
        else ⟨[], Outcome.proceed (some ⟨⟨tok, o, []⟩, o.clo_num_params⟩)⟩

/-- The parser over a run of tokens none of which is examined as a
combination: `step` on each in turn, until one stops the parse; the tokens
after the stop go to the tail. -/
def steps (options : List prrte_cmd_line_option_t) :
    Option Collecting → List CStr → Step
  | current, [] => ⟨[], Outcome.proceed current⟩
  | current, tok :: rest =>
    match (step options current tok).outcome with
    | Outcome.stop reason tl => ⟨(step options current tok).recorded, Outcome.stop reason (tl ++ rest)⟩
    | Outcome.proceed cur =>
      ⟨(step options current tok).recorded ++ (steps options cur rest).recorded,
        (steps options cur rest).outcome⟩

/-- The tokens the parser works through for one token of `argv`: in option
position a combination of short names stands for its single-letter tokens,
every other token for itself. -/
def tokens_of (options : List prrte_cmd_line_option_t) (current : Option Collecting)
    (tok : CStr) : List CStr :=
  if current.isNone && is_combined options tok then short_tokens tok else [tok]

/-- What the pass over the tokens gives: the options found with their values,
the tail and the reason of the stop. -/
structure Scan where
  params : List prrte_cmd_line_param_t
  tail : List CStr
  stop : StopReason
  deriving DecidableEq, Repr

/-- Modelled from the spec: the pass of `prrte_cmd_line_parse` over the tokens
after `argv[0]`; the body of the parser is not among the sources and the spec
leaves command line parsing to an external collaborator, so the model follows
the contract documented in `cmd_line.h`.  `current` is the option whose
parameters are being collected.  "Parsing will stop" when "all argv tokens are
processed", "the token `--` is found", "an unrecognized token is found", "a
parameter registered with an integer type option finds a non-integer option
token" or an option registered with N parameters finds fewer than N tokens;
"any remaining tokens will be placed in the tail": the tokens after `--`, or
the token that was not accepted and those after it.  A combination of short names is worked
through as the single-letter tokens it is equivalent to.  An option whose
parameters are cut short by a stop is not recorded. -/
def scan (options : List prrte_cmd_line_option_t) :
    Option Collecting → List CStr → Scan
  | current, [] =>
    match current with
    | none => ⟨[], [], StopReason.all_processed⟩
    | some _ => ⟨[], [], StopReason.missing_params⟩
  | current, tok :: rest =>
    match (steps options current (tokens_of options current tok)).outcome with
    | Outcome.stop reason tl =>
      ⟨(steps options current (tokens_of options current tok)).recorded, tl ++ rest, reason⟩
    | Outcome.proceed cur =>
      ⟨(steps options current (tokens_of options current tok)).recorded ++
          (scan options cur rest).params,
        (scan options cur rest).tail, (scan options cur rest).stop⟩

/-- Result of `prrte_cmd_line_parse`: the return code, the handle afterwards,
the caller's `argv` afterwards and whether an error message was displayed. -/
structure ParseOut where
  ret : CmdStatus
  cmd : prrte_cmd_line_t
  argv : List CStr
  printed_error : Bool
  deriving DecidableEq, Repr

/-- Modelled from the spec: `prrte_cmd_line_parse(cmd, ignore_unknown,
ignore_unknown_option, argc, argv)`, declared in `cmd_line.h` with its body not
among the sources; the model follows the header.  `argv[0]` "is ignored during
parsing", the handle keeps a duplicate of `argv`, "the contents of argc and
argv are not changed", a message is displayed for missing parameters, for an
unrecognized token unless `ignore_unknown` and for an unrecognized token that
starts with `-` unless `ignore_unknown_option`, and `PRRTE_ERR_SILENT` is
returned when a message was displayed.  The header does not say what is
returned for a parameter that is not an integer; the model reports it like
missing parameters. -/
def prrte_cmd_line_parse (cmd : prrte_cmd_line_t) (ignore_unknown : Bool)
    (ignore_unknown_option : Bool) (argv : List CStr) : ParseOut :=
  let r := scan cmd.lcl_options none argv.tail
  let printed : Bool :=
    match r.stop with
    | StopReason.missing_params => true
    | StopReason.not_integer => true
    | StopReason.unrecognized =>
      if (r.tail.head?.bind List.head?) == some '-' then !ignore_unknown_option
      else !ignore_unknown
    | _ => false
  ⟨if printed then CmdStatus.PRRTE_ERR_SILENT else CmdStatus.PRRTE_SUCCESS,
    { cmd with
      lcl_argc := argv.length
      lcl_argv := argv
      lcl_params := r.params
      lcl_tail_argc := r.tail.length
      lcl_tail_argv := r.tail },
    argv, printed⟩

/-- Modelled from the spec: `prrte_cmd_line_get_tail(cmd, &tailc, &tailv)`,
declared in `cmd_line.h` with its body not among the sources: `PRRTE_ERROR` for
a `NULL` handle, else the length and a copy of the tail. -/
def prrte_cmd_line_get_tail (cmd : Option prrte_cmd_line_t) :
    CmdStatus × Option (Nat × List CStr) :=
  match cmd with
  | none => (CmdStatus.PRRTE_ERROR, none)
  | some c => (CmdStatus.PRRTE_SUCCESS, some (c.lcl_tail_argc, c.lcl_tail_argv))

/-- A handle with the two options of the header's sample table, `-h`/`--help`
without parameter and `--wd` with one, and with `-v` without parameter and
`-n`/`--np` with one integer parameter. -/
def example_cmd : prrte_cmd_line_t :=
  { lcl_options :=
      [⟨'h', some "help".toList, 0, prrte_cmd_line_type_t.PRRTE_CMD_LINE_TYPE_BOOL⟩,
        ⟨PlmRsh.NUL, some "wd".toList, 1, prrte_cmd_line_type_t.PRRTE_CMD_LINE_TYPE_STRING⟩,
        ⟨'v', none, 0, prrte_cmd_line_type_t.PRRTE_CMD_LINE_TYPE_BOOL⟩,
        ⟨'n', some "np".toList, 1, prrte_cmd_line_type_t.PRRTE_CMD_LINE_TYPE_INT⟩]
    lcl_argc := 0
    lcl_argv := []
    lcl_params := []
    lcl_tail_argc := 0
    lcl_tail_argv := [] }

end CmdLine

namespace PlmRsh

/-! ## Case-insensitive comparison -/

theorem toLower_eq_dash (c : Char) : c.toLower = '-' ↔ c = '-' := by
  constructor
  · intro h
    unfold Char.toLower at h
    simp only at h
    split at h
    · rename_i hr
      exfalso
      have h1 : c.toNat ≤ 90 := hr.2
      have h2 : 65 ≤ c.toNat := hr.1
      generalize c.toNat = n at h h1 h2
      interval_cases n <;> revert h <;> decide
    · exact h
  · intro h; subst h; decide

theorem toLower_eq_x (c : Char) : c.toLower = 'x' ↔ (c = 'x' ∨ c = 'X') := by
  constructor
  · intro h
    unfold Char.toLower at h
    simp only at h
    split at h
    · rename_i hr
      right
      have h1 : c.toNat ≤ 90 := hr.2
      have h2 : 65 ≤ c.toNat := hr.1
      have h3 : c = Char.ofNat c.toNat := (Char.ofNat_toNat c).symm
      generalize c.toNat = n at h h1 h2 h3
      interval_cases n <;> first | exact h3 | (exfalso; revert h; decide)
    · exact Or.inl h
  · rintro (h | h) <;> subst h <;> decide

theorem map_toLower_eq_dash_x (a : CStr) :
    a.map Char.toLower = ['-', 'x'] ↔ (a = "-X".toList ∨ a = "-x".toList) := by
  have e1 : "-X".toList = ['-', 'X'] := rfl
  have e2 : "-x".toList = ['-', 'x'] := rfl
  rw [e1, e2]
  match a with
  | [] => simp
  | [c] => simp
  | [c, d] =>
    simp only [List.map_cons, List.map_nil, List.cons.injEq, and_true, toLower_eq_dash,
      toLower_eq_x]
    tauto
  | _ :: _ :: _ :: _ => simp

/-- `strcasecmp("-x", a) == 0` holds for the two spellings `-X` and `-x` and
for nothing else. -/
theorem strcasecmp_x_iff (a : CStr) :
    strcasecmp_eq "-x".toList a = true ↔ (a = "-X".toList ∨ a = "-x".toList) := by
  have e : "-x".toList.map Char.toLower = ['-', 'x'] := by decide
  unfold strcasecmp_eq
  rw [e, beq_iff_eq, eq_comm]
  exact map_toLower_eq_dash_x a

/-- `strcasecmp("-X", a) == 0` holds for the two spellings `-X` and `-x` and
for nothing else. -/
theorem strcasecmp_X_iff (a : CStr) :
    strcasecmp_eq "-X".toList a = true ↔ (a = "-X".toList ∨ a = "-x".toList) := by
  have e : "-X".toList.map Char.toLower = ['-', 'x'] := by decide
  unfold strcasecmp_eq
  rw [e, beq_iff_eq, eq_comm]
  exact map_toLower_eq_dash_x a

/-! ## Splitting and trimming -/

theorem fields_ne_nil (d : Char) (s : CStr) : fields d s ≠ [] := by
  cases s with
  | nil => simp [fields]
  | cons c cs =>
    simp only [fields]
    split
    · simp
    · split <;> simp

theorem fields_cons_of_ne (d c : Char) (cs : CStr) (h : (c == d) = false) :
    ∃ f fs, fields d (c :: cs) = (c :: f) :: fs := by
  simp only [fields, h]
  cases hf : fields d cs with
  | nil => exact ⟨[], [], by simp⟩
  | cons f fs => exact ⟨f, fs, by simp⟩

theorem argv_split_cons_of_ne (d c : Char) (cs : CStr) (h : (c == d) = false) :
    ∃ f ts, prrte_argv_split (c :: cs) d = (c :: f) :: ts := by
  obtain ⟨f, fs, hf⟩ := fields_cons_of_ne d c cs h
  exact ⟨f, fs.filter (fun t => !t.isEmpty), by simp [prrte_argv_split, hf]⟩

theorem trim_front_head (l : CStr) (c : Char) (cs : CStr) (h : trim_front l = c :: cs) :
    isspace c = false := by
  induction l with
  | nil => simp [trim_front] at h
  | cons a as ih =>
    unfold trim_front at h ih
    by_cases ha : isspace a = true
    · rw [List.dropWhile_cons_of_pos ha] at h
      exact ih h
    · rw [List.dropWhile_cons_of_neg ha] at h
      simp only [List.cons.injEq] at h
      rw [← h.1]
      simpa using ha

theorem trim_back_head (c : Char) (cs : CStr) : ∃ r, trim_back (c :: cs) = c :: r := by
  unfold trim_back
  simp only
  split
  · rename_i hj
    have : ∃ n, (((c :: cs).length : Int) - 2).toNat = n + 1 := by
      refine ⟨(((c :: cs).length : Int) - 2).toNat - 1, ?_⟩
      omega
    obtain ⟨n, hn⟩ := this
    rw [hn]
    exact ⟨List.take n cs ++ zap_forward (List.drop n cs), by simp⟩
  · exact ⟨cs, rfl⟩

/-- After both trimming loops a candidate that is not empty starts with a
character that is not whitespace. -/
theorem trim_line_head (l : CStr) (h : trim_line l ≠ []) :
    ∃ c cs, trim_line l = c :: cs ∧ isspace c = false := by
  unfold trim_line at h ⊢
  cases hf : trim_front l with
  | nil => rw [hf] at h; simp [trim_back, cstr] at h
  | cons c cs =>
    obtain ⟨r, hr⟩ := trim_back_head c cs
    rw [hf, hr] at h
    rw [hr]
    by_cases hc : (c != NUL) = true
    · exact ⟨c, r.takeWhile (fun c => c != NUL), by simp [cstr, List.takeWhile_cons, hc],
        trim_front_head l c cs hf⟩
    · simp [cstr, List.takeWhile_cons, hc] at h

/-- A candidate that survives the trimming has a first token. -/
theorem argv_split_trim_line (l : CStr) (h : trim_line l ≠ []) :
    ∃ t0 ts, prrte_argv_split (trim_line l) (Char.ofNat 32) = t0 :: ts ∧ t0 ≠ [] := by
  obtain ⟨c, cs, hl, hc⟩ := trim_line_head l h
  have hne : (c == Char.ofNat 32) = false := by
    cases hcc : (c == Char.ofNat 32) with
    | false => rfl
    | true => simp [isspace, hcc] at hc
  obtain ⟨f, ts, hs⟩ := argv_split_cons_of_ne (Char.ofNat 32) c cs hne
  exact ⟨c :: f, ts, by rw [hl, hs], by simp⟩

/-! ## The search -/

theorem candidates_of_lines_cons (l : CStr) (rest : List CStr) :
    candidates_of_lines (l :: rest) =
      if trim_line l = [] then candidates_of_lines rest
      else prrte_argv_split (trim_line l) (Char.ofNat 32) :: candidates_of_lines rest := by
  unfold candidates_of_lines
  by_cases h : trim_line l = []
  · simp [h]
  · simp [h]

theorem search_lines_first_found (w : World) (cwd : CStr) (lines : List CStr) :
    ∀ (pre post : List (List CStr)) (t0 : CStr) (ts : List CStr) (tmp : CStr),
      candidates_of_lines lines = pre ++ (t0 :: ts) :: post →
      (∀ e ∈ pre, w.prrte_path_findv (e.headD []) cwd = none) →
      w.prrte_path_findv t0 cwd = some tmp →
      search_lines w cwd lines = ⟨some (tmp :: ts), pre.map (probe_of cwd) ++ [⟨t0, cwd⟩]⟩ := by
  induction lines with
  | nil =>
    intro pre post t0 ts tmp hc
    simp [candidates_of_lines] at hc
  | cons l rest ih =>
    intro pre post t0 ts tmp hc hpre hfound
    rw [candidates_of_lines_cons] at hc
    by_cases hl : trim_line l = []
    · rw [if_pos hl] at hc
      have : search_lines w cwd (l :: rest) = search_lines w cwd rest := by
        simp [search_lines, hl]
      rw [this]
      exact ih pre post t0 ts tmp hc hpre hfound
    · rw [if_neg hl] at hc
      obtain ⟨u0, us, hsplit, _⟩ := argv_split_trim_line l hl
      have hlen : ¬ (trim_line l).length ≤ 0 := by
        simpa [List.length_eq_zero] using hl
      rw [hsplit] at hc
      cases pre with
      | nil =>
        simp only [List.nil_append, List.cons.injEq] at hc
        obtain ⟨⟨h0, hs⟩, _⟩ := hc
        subst h0 hs
        simp [search_lines, hlen, hsplit, hfound]
      | cons e pre1 =>
        simp only [List.cons_append, List.cons.injEq] at hc
        obtain ⟨he, hrest⟩ := hc
        have hnone : w.prrte_path_findv u0 cwd = none := by
          have := hpre e (by simp)
          rw [← he] at this
          simpa using this
        have hrec := ih pre1 post t0 ts tmp hrest
          (fun x hx => hpre x (by simp [hx])) hfound
        simp [search_lines, hlen, hsplit, hnone, hrec, probe_of, ← he]

/-- The search never returns an empty argument vector. -/
theorem search_lines_argv_ne_nil (w : World) (cwd : CStr) (lines : List CStr) :
    (search_lines w cwd lines).argv ≠ some [] := by
  induction lines with
  | nil => simp [search_lines]
  | cons l rest ih =>
    simp only [search_lines]
    split
    · exact ih
    · split
      · exact ih
      · split
        · simp
        · exact ih

theorem search_argv_ne_nil (w : World) (agent agent_list path : Option CStr) :
    (prrte_plm_rsh_search w agent agent_list path).argv ≠ some [] := by
  unfold prrte_plm_rsh_search
  split
  · simp
  · exact search_lines_argv_ne_nil _ _ _
  · exact search_lines_argv_ne_nil _ _ _

/-- The list `prrte_plm_rsh_search` works on: `agent_list`, and the
component's `agent` when `agent_list` is `NULL`. -/
theorem search_eq_search_lines (w : World) (agent agent_list path : Option CStr) (l : CStr)
    (hl : agent_list = some l ∨ (agent_list = none ∧ agent = some l)) :
    prrte_plm_rsh_search w agent agent_list path =
      search_lines w (search_cwd w path) (prrte_argv_split l ':') := by
  rcases hl with h | ⟨h1, h2⟩
  · subst h; simp [prrte_plm_rsh_search]
  · subst h1 h2; simp [prrte_plm_rsh_search]

theorem search_lines_found_probe (w : World) (cwd : CStr) (lines : List CStr) (p : CStr)
    (ts : List CStr) (h : (search_lines w cwd lines).argv = some (p :: ts)) :
    ∃ t0, (search_lines w cwd lines).probes.getLast? = some ⟨t0, cwd⟩ ∧
      w.prrte_path_findv t0 cwd = some p := by
  induction lines with
  | nil => simp [search_lines] at h
  | cons l rest ih =>
    by_cases h1 : (trim_line l).length ≤ 0
    · have e : search_lines w cwd (l :: rest) = search_lines w cwd rest := by
        simp only [search_lines, if_pos h1]
      rw [e] at h ⊢
      exact ih h
    · cases h2 : prrte_argv_split (trim_line l) (Char.ofNat 32) with
      | nil =>
        have e : search_lines w cwd (l :: rest) = search_lines w cwd rest := by
          simp only [search_lines, if_neg h1, h2]
        rw [e] at h ⊢
        exact ih h
      | cons t0 us =>
        cases h3 : w.prrte_path_findv t0 cwd with
        | some tmp =>
          have e : search_lines w cwd (l :: rest) =
              ⟨some (tmp :: us), [⟨t0, cwd⟩]⟩ := by
            simp only [search_lines, if_neg h1, h2, h3]
          rw [e] at h ⊢
          simp only [Option.some.injEq, List.cons.injEq] at h
          exact ⟨t0, by simp, by rw [h3, h.1]⟩
        | none =>
          have e : search_lines w cwd (l :: rest) =
              ⟨(search_lines w cwd rest).argv,
                ⟨t0, cwd⟩ :: (search_lines w cwd rest).probes⟩ := by
            simp only [search_lines, if_neg h1, h2, h3]
          rw [e] at h ⊢
          obtain ⟨u0, hu, hf⟩ := ih h
          refine ⟨u0, ?_, hf⟩
          cases hp : (search_lines w cwd rest).probes with
          | nil => rw [hp] at hu; simp at hu
          | cons a as => rw [hp] at hu; simpa [List.getLast?_cons_cons] using hu

theorem search_found_probe (w : World) (agent agent_list path : Option CStr) (p : CStr)
    (ts : List CStr) (h : (prrte_plm_rsh_search w agent agent_list path).argv = some (p :: ts)) :
    ∃ t0, (prrte_plm_rsh_search w agent agent_list path).probes.getLast? =
        some ⟨t0, search_cwd w path⟩ ∧
      w.prrte_path_findv t0 (search_cwd w path) = some p := by
  unfold prrte_plm_rsh_search at h ⊢
  split at h
  · simp at h
  · exact search_lines_found_probe w _ _ p ts h
  · exact search_lines_found_probe w _ _ p ts h

theorem trim_line_of_blank (l : CStr) (h : l.all isspace = true) : trim_line l = [] := by
  have : trim_front l = [] := by
    unfold trim_front
    rw [List.dropWhile_eq_nil_iff]
    simpa [List.all_eq_true] using h
  simp [trim_line, this, trim_back, cstr]

theorem search_lines_blank (w : World) (cwd : CStr) (lines : List CStr)
    (h : ∀ e ∈ lines, e.all isspace = true) : search_lines w cwd lines = ⟨none, []⟩ := by
  induction lines with
  | nil => simp [search_lines]
  | cons l rest ih =>
    have hl := trim_line_of_blank l (h l (by simp))
    have := ih (fun e he => h e (by simp [he]))
    simp [search_lines, hl, this]

/-- The order of the loop of `prrte_plm_rsh_search`, over the token vectors
the code itself computes (`candidates`): the result is the vector of the first
of them whose first token the path search finds (with the path found in
position 0), and the probes made are exactly the first tokens of the vectors
before it, none of which was found, followed by its own first token. -/
theorem search_loop_first_found (w : World) (agent agent_list path : Option CStr) (l : CStr)
    (pre post : List (List CStr)) (t0 : CStr) (ts : List CStr) (tmp : CStr)
    (hl : agent_list = some l ∨ (agent_list = none ∧ agent = some l))
    (hc : candidates l = pre ++ (t0 :: ts) :: post)
    (hpre : ∀ e ∈ pre, w.prrte_path_findv (e.headD []) (search_cwd w path) = none)
    (hfound : w.prrte_path_findv t0 (search_cwd w path) = some tmp) :
    prrte_plm_rsh_search w agent agent_list path =
      ⟨some (tmp :: ts),
        pre.map (probe_of (search_cwd w path)) ++ [⟨t0, search_cwd w path⟩]⟩ := by
  rw [search_eq_search_lines w agent agent_list path l hl]
  exact search_lines_first_found w _ _ pre post t0 ts tmp hc hpre hfound

/-- With only `rsh` installed, the list `ssh : rsh -l user` resolves to the second
entry after one failed probe of `ssh`. -/
theorem search_loop_first_found_witness :
    candidates "ssh : rsh -l user".toList =
        [["ssh".toList]] ++ ("rsh".toList :: ["-l".toList, "user".toList]) :: [] ∧
      (∀ e ∈ [["ssh".toList]],
        rsh_world.prrte_path_findv (e.headD []) (search_cwd rsh_world none) = none) ∧
      rsh_world.prrte_path_findv "rsh".toList (search_cwd rsh_world none) =
        some "/usr/bin/rsh".toList ∧
      prrte_plm_rsh_search rsh_world none (some "ssh : rsh -l user".toList) none =
        ⟨some ("/usr/bin/rsh".toList :: ["-l".toList, "user".toList]),
          [["ssh".toList]].map (probe_of (search_cwd rsh_world none)) ++
            [⟨"rsh".toList, search_cwd rsh_world none⟩]⟩ :=
  ⟨by decide, by decide, by decide,
    search_loop_first_found rsh_world none (some "ssh : rsh -l user".toList) none
      "ssh : rsh -l user".toList [["ssh".toList]] [] "rsh".toList
      ["-l".toList, "user".toList] "/usr/bin/rsh".toList (Or.inl rfl) (by decide) (by decide)
      (by decide)⟩

/-- Claim C1, the code at two lists.  In `ssh`, a tab, `: rsh` the candidates
are `ssh` and `rsh`, and `ssh` is installed: the first candidate is the one to
return.  The second trimming loop leaves the tab, the name probed is `ssh`
followed by the tab, which is not found, and the search goes on to return the
vector of `rsh`.  In `ssh : rsh -l u` with only `rsh` installed the second
candidate is the first one found and has three tokens, and the vector returned
has two. -/
theorem search_not_first_candidate :
    (spec_candidates "ssh\t: rsh".toList = [["ssh".toList], ["rsh".toList]] ∧
        (ssh_rsh_world none 0 VarSource.DEFAULT).prrte_path_findv "ssh".toList
          "/home/user".toList = some "/usr/bin/ssh".toList ∧
        prrte_plm_rsh_search (ssh_rsh_world none 0 VarSource.DEFAULT) none
          (some "ssh\t: rsh".toList) none =
          ⟨some ["/usr/bin/rsh".toList],
            [⟨"ssh\t".toList, "/home/user".toList⟩, ⟨"rsh".toList, "/home/user".toList⟩]⟩) ∧
      (spec_candidates "ssh : rsh -l u".toList =
          [["ssh".toList], ["rsh".toList, "-l".toList, "u".toList]] ∧
        rsh_world.prrte_path_findv "ssh".toList "/home/user".toList = none ∧
        rsh_world.prrte_path_findv "rsh".toList "/home/user".toList =
          some "/usr/bin/rsh".toList ∧
        prrte_plm_rsh_search rsh_world none (some "ssh : rsh -l u".toList) none =
          ⟨some ["/usr/bin/rsh".toList, "-l".toList],
            [⟨"ssh".toList, "/home/user".toList⟩, ⟨"rsh".toList, "/home/user".toList⟩]⟩) := by
  decide

/-- Claim C2, the code at the claim's own example: the candidate `rsh -l u`
has the three tokens `rsh`, `-l`, `u`, and with `rsh` installed the search
returns a vector of two elements, the last token `u` dropped by the second
trimming loop. -/
theorem search_drops_last_token :
    prrte_argv_split "rsh -l u".toList (Char.ofNat 32) =
        ["rsh".toList, "-l".toList, "u".toList] ∧
      trim_line "rsh -l u".toList = "rsh -l".toList ∧
      (prrte_plm_rsh_search rsh_world none (some "rsh -l u".toList) none).argv =
        some ["/usr/bin/rsh".toList, "-l".toList] := by
  decide

/-- Claim C3, the code at two inputs: a tab after the candidate `rsh` is not
trimmed, the name probed is `rsh` followed by the tab and nothing is found,
while `rsh` alone is found; and the candidate `rsh -l u` between two spaces
resolves to three elements while alone it resolves to two. -/
theorem search_keeps_trailing_whitespace :
    prrte_plm_rsh_search rsh_world none (some "rsh\t".toList) none =
        ⟨none, [⟨"rsh\t".toList, "/home/user".toList⟩]⟩ ∧
      prrte_plm_rsh_search rsh_world none (some "rsh".toList) none =
        ⟨some ["/usr/bin/rsh".toList], [⟨"rsh".toList, "/home/user".toList⟩]⟩ ∧
      (prrte_plm_rsh_search rsh_world none (some " rsh -l u ".toList) none).argv =
        some ["/usr/bin/rsh".toList, "-l".toList, "u".toList] ∧
      (prrte_plm_rsh_search rsh_world none (some "rsh -l u".toList) none).argv =
        some ["/usr/bin/rsh".toList, "-l".toList] := by
  decide

/-- Claim C5: for a candidate list that is empty, or whose colon-separated
entries all consist of whitespace only, `prrte_plm_rsh_search` returns `NULL`
and never calls the path search. -/
theorem search_blank_list (w : World) (agent agent_list path : Option CStr) (l : CStr)
    (hl : agent_list = some l ∨ (agent_list = none ∧ agent = some l))
    (h : l = [] ∨ ∀ e ∈ fields ':' l, e.all isspace = true) :
    prrte_plm_rsh_search w agent agent_list path = ⟨none, []⟩ := by
  rw [search_eq_search_lines w agent agent_list path l hl]
  apply search_lines_blank
  intro e he
  rcases h with h | h
  · subst h
    simp [prrte_argv_split, fields] at he
  · exact h e (List.mem_filter.mp he).1

/-- The list made of a space, a colon, a space, a tab, a space and a colon has
no candidate: nothing is probed. -/
theorem search_blank_list_witness :
    (" : \t :".toList = [] ∨ ∀ e ∈ fields ':' " : \t :".toList, e.all isspace = true) ∧
      prrte_plm_rsh_search (ssh_rsh_world none 0 VarSource.DEFAULT) none
        (some " : \t :".toList) none = ⟨none, []⟩ :=
  ⟨by decide,
    search_blank_list (ssh_rsh_world none 0 VarSource.DEFAULT) none (some " : \t :".toList) none
      " : \t :".toList (Or.inl rfl) (by decide)⟩

/-! ## The xterm argument -/

theorem any_strcasecmp_X_iff (ts : List CStr) :
    ts.any (fun a => strcasecmp_eq "-X".toList a) = true ↔
      ∃ a ∈ ts, a = "-X".toList ∨ a = "-x".toList := by
  simp only [List.any_eq_true, strcasecmp_X_iff]

theorem find_strcasecmp_x_isNone_iff (ts : List CStr) :
    (ts.find? (fun a => strcasecmp_eq "-x".toList a)).isNone = true ↔
      ∀ a ∈ ts, a ≠ "-X".toList ∧ a ≠ "-x".toList := by
  rw [Option.isNone_iff_eq_none, List.find?_eq_none]
  constructor
  · intro h a ha
    have := h a ha
    rw [strcasecmp_x_iff] at this
    exact not_or.mp this
  · intro h a ha
    rw [strcasecmp_x_iff]
    exact not_or.mpr (h a ha)

theorem xterm_argument_ssh_xterm (xterm : Option CStr) (v : Int) (ts : List CStr)
    (hx : xterm.isSome = true) :
    xterm_argument xterm v ("ssh".toList :: ts) =
      if ∃ a ∈ ts, a = "-X".toList ∨ a = "-x".toList then "ssh".toList :: ts
      else "ssh".toList :: ts ++ ["-X".toList] := by
  have h0 : strcasecmp_eq "-X".toList "ssh".toList = false := by decide
  simp only [xterm_argument, if_true, hx, prrte_argv_append_unique_nosize, List.any_cons, h0,
    Bool.false_or, prrte_argv_append_nosize]
  by_cases h : ∃ a ∈ ts, a = "-X".toList ∨ a = "-x".toList
  · rw [if_pos h, if_pos ((any_strcasecmp_X_iff ts).2 h)]
  · rw [if_neg h, if_neg (fun h1 => h ((any_strcasecmp_X_iff ts).1 h1))]

theorem xterm_argument_ssh_no_xterm (v : Int) (ts : List CStr) :
    xterm_argument none v ("ssh".toList :: ts) =
      if v ≤ 0 ∧ ∀ a ∈ ts, a ≠ "-X".toList ∧ a ≠ "-x".toList then
        "ssh".toList :: ts ++ ["-x".toList]
      else "ssh".toList :: ts := by
  simp only [xterm_argument, if_true, Option.isSome_none, Bool.false_eq_true, if_false,
    prrte_argv_append_nosize, ge_iff_le]
  by_cases hv : v ≤ 0
  · by_cases h : ∀ a ∈ ts, a ≠ "-X".toList ∧ a ≠ "-x".toList
    · rw [if_pos hv, if_pos ((find_strcasecmp_x_isNone_iff ts).2 h), if_pos ⟨hv, h⟩]
    · rw [if_pos hv, if_neg (fun h1 => h ((find_strcasecmp_x_isNone_iff ts).1 h1)),
        if_neg (fun h1 => h h1.2)]
  · rw [if_neg hv, if_neg (fun h1 => hv h1.1)]

theorem xterm_argument_not_ssh (xterm : Option CStr) (v : Int) (bname : CStr)
    (ts : List CStr) (hb : bname ≠ "ssh".toList) :
    xterm_argument xterm v (bname :: ts) = bname :: ts := by
  simp only [xterm_argument, if_neg hb]

theorem xterm_argument_head (xterm : Option CStr) (v : Int) (bname : CStr) (ts : List CStr) :
    (xterm_argument xterm v (bname :: ts)).head? = some bname := by
  simp only [xterm_argument, prrte_argv_append_unique_nosize, prrte_argv_append_nosize]
  split_ifs <;> simp

/-- Claim C8: the ssh flag adjustment is idempotent: applied to its own
result, with the same X11 request and verbosity, it changes nothing. -/
theorem xterm_argument_idempotent (xterm : Option CStr) (v : Int) (argv : List CStr) :
    xterm_argument xterm v (xterm_argument xterm v argv) = xterm_argument xterm v argv := by
  cases argv with
  | nil => simp [xterm_argument]
  | cons b ts =>
    by_cases hb : b = "ssh".toList
    · subst hb
      cases hx : xterm with
      | some x =>
        have hs : (some x : Option CStr).isSome = true := rfl
        rw [xterm_argument_ssh_xterm (some x) v ts hs]
        by_cases h : ∃ a ∈ ts, a = "-X".toList ∨ a = "-x".toList
        · rw [if_pos h, xterm_argument_ssh_xterm (some x) v ts hs, if_pos h]
        · rw [if_neg h]
          have e : "ssh".toList :: ts ++ ["-X".toList] = "ssh".toList :: (ts ++ ["-X".toList]) :=
            rfl
          rw [e, xterm_argument_ssh_xterm (some x) v _ hs, if_pos]
          exact ⟨"-X".toList, by simp, Or.inl rfl⟩
      | none =>
        rw [xterm_argument_ssh_no_xterm v ts]
        by_cases h : v ≤ 0 ∧ ∀ a ∈ ts, a ≠ "-X".toList ∧ a ≠ "-x".toList
        · rw [if_pos h]
          have e : "ssh".toList :: ts ++ ["-x".toList] = "ssh".toList :: (ts ++ ["-x".toList]) :=
            rfl
          rw [e, xterm_argument_ssh_no_xterm v _, if_neg]
          intro h1
          exact (h1.2 "-x".toList (by simp)).2 rfl
        · rw [if_neg h, xterm_argument_ssh_no_xterm v ts, if_neg h]
    · rw [xterm_argument_not_ssh xterm v b ts hb, xterm_argument_not_ssh xterm v b ts hb]

/-! ## The lookup -/

theorem lookup_of_found (w : World) (comp : Component) (agent_list path : Option CStr)
    (p : CStr) (ts : List CStr) (bname : CStr)
    (hs : (prrte_plm_rsh_search w comp.agent agent_list path).argv = some (p :: ts))
    (hb : prrte_basename p = some bname) :
    rsh_launch_agent_lookup w comp agent_list path =
      ⟨Status.PRRTE_SUCCESS,
        { comp with
          agent_argv := some (xterm_argument w.prrte_xterm w.verbosity (bname :: ts)),
          agent_path := some p },
        (prrte_plm_rsh_search w comp.agent agent_list path).probes⟩ := by
  have hg : (agent_list.isNone && comp.agent.isNone) = false := by
    cases h1 : agent_list with
    | some a => simp
    | none =>
      cases h2 : comp.agent with
      | some a => simp
      | none => rw [h1, h2] at hs; simp [prrte_plm_rsh_search] at hs
  simp only [rsh_launch_agent_lookup, hg, Bool.false_eq_true, if_false, hs, hb]

theorem lookup_of_not_found (w : World) (comp : Component) (agent_list path : Option CStr)
    (hs : (prrte_plm_rsh_search w comp.agent agent_list path).argv = none) :
    (rsh_launch_agent_lookup w comp agent_list path).ret = Status.PRRTE_ERR_NOT_FOUND := by
  unfold rsh_launch_agent_lookup
  split
  · rfl
  · simp only [hs]

theorem basename_no_slash (p bname : CStr) (h : prrte_basename p = some bname) :
    '/' ∉ bname := by
  unfold prrte_basename at h
  simp only [Option.some.injEq] at h
  rw [← h, List.mem_reverse]
  intro hm
  have := List.mem_takeWhile_imp hm
  simp at this

/-- Claim C4: `rsh_launch_agent_lookup` either succeeds or reports not-found.
It returns `PRRTE_SUCCESS` exactly when the search resolved a candidate; then
`agent_path` is the path the path search returned for that candidate's first
token (the last name probed) and `agent_argv[0]` is the basename of that path,
which has no `/` in it.  When the search resolves nothing the lookup returns
`PRRTE_ERR_NOT_FOUND`. -/
theorem lookup_success_or_not_found (w : World) (comp : Component)
    (agent_list path : Option CStr) :
    (∃ p ts t0 bname,
        (prrte_plm_rsh_search w comp.agent agent_list path).argv = some (p :: ts) ∧
        (prrte_plm_rsh_search w comp.agent agent_list path).probes.getLast? =
          some ⟨t0, search_cwd w path⟩ ∧
        w.prrte_path_findv t0 (search_cwd w path) = some p ∧
        prrte_basename p = some bname ∧ '/' ∉ bname ∧
        (rsh_launch_agent_lookup w comp agent_list path).ret = Status.PRRTE_SUCCESS ∧
        (rsh_launch_agent_lookup w comp agent_list path).comp.agent_path = some p ∧
        (rsh_launch_agent_lookup w comp agent_list path).comp.agent_argv.bind List.head? =
          some bname) ∨
      ((prrte_plm_rsh_search w comp.agent agent_list path).argv = none ∧
        (rsh_launch_agent_lookup w comp agent_list path).ret = Status.PRRTE_ERR_NOT_FOUND) := by
  cases hs : (prrte_plm_rsh_search w comp.agent agent_list path).argv with
  | none => exact Or.inr ⟨rfl, lookup_of_not_found w comp agent_list path hs⟩
  | some argv =>
    cases argv with
    | nil => exact absurd hs (search_argv_ne_nil w comp.agent agent_list path)
    | cons p ts =>
      left
      obtain ⟨t0, hlast, hfind⟩ := search_found_probe w comp.agent agent_list path p ts hs
      obtain ⟨bname, hb⟩ : ∃ bname, prrte_basename p = some bname := ⟨_, rfl⟩
      refine ⟨p, ts, t0, bname, rfl, hlast, hfind, hb, basename_no_slash p bname hb, ?_, ?_, ?_⟩
      · rw [lookup_of_found w comp agent_list path p ts bname hs hb]
      · rw [lookup_of_found w comp agent_list path p ts bname hs hb]
      · rw [lookup_of_found w comp agent_list path p ts bname hs hb]
        simp [xterm_argument_head]

/-- Claim C6: for an agent whose basename is `ssh`, with `prrte_xterm` set, the
lookup leaves the argument vector as it is when some argument is `-X` or `-x`,
and appends `-X` otherwise. -/
theorem lookup_ssh_xterm (w : World) (comp : Component) (agent_list path : Option CStr)
    (p : CStr) (ts : List CStr)
    (hs : (prrte_plm_rsh_search w comp.agent agent_list path).argv = some (p :: ts))
    (hb : prrte_basename p = some "ssh".toList)
    (hx : w.prrte_xterm.isSome = true) :
    (rsh_launch_agent_lookup w comp agent_list path).comp.agent_argv =
      some (if ∃ a ∈ ts, a = "-X".toList ∨ a = "-x".toList then "ssh".toList :: ts
        else "ssh".toList :: ts ++ ["-X".toList]) := by
  rw [lookup_of_found w comp agent_list path p ts _ hs hb,
    xterm_argument_ssh_xterm w.prrte_xterm w.verbosity ts hx]

/-- Claim C7: for an agent whose basename is `ssh`, with `prrte_xterm` not set,
the lookup appends `-x` exactly when the verbosity is at most 0 and no
argument after `argv[0]` is `-x` or `-X`; otherwise the argument vector is
unchanged. -/
theorem lookup_ssh_no_xterm (w : World) (comp : Component) (agent_list path : Option CStr)
    (p : CStr) (ts : List CStr)
    (hs : (prrte_plm_rsh_search w comp.agent agent_list path).argv = some (p :: ts))
    (hb : prrte_basename p = some "ssh".toList)
    (hx : w.prrte_xterm = none) :
    (rsh_launch_agent_lookup w comp agent_list path).comp.agent_argv =
      some (if w.verbosity ≤ 0 ∧ ∀ a ∈ ts, a ≠ "-X".toList ∧ a ≠ "-x".toList then
          "ssh".toList :: ts ++ ["-x".toList]
        else "ssh".toList :: ts) := by
  rw [lookup_of_found w comp agent_list path p ts _ hs hb, hx,
    xterm_argument_ssh_no_xterm w.verbosity ts]

/-- Claim C9: for an agent whose basename is not `ssh` the lookup adds no flag,
whatever `prrte_xterm` and the verbosity are: the argument vector is the
basename followed by the candidate's remaining tokens. -/
theorem lookup_not_ssh (w : World) (comp : Component) (agent_list path : Option CStr)
    (p : CStr) (ts : List CStr) (bname : CStr)
    (hs : (prrte_plm_rsh_search w comp.agent agent_list path).argv = some (p :: ts))
    (hb : prrte_basename p = some bname)
    (hne : bname ≠ "ssh".toList) :
    (rsh_launch_agent_lookup w comp agent_list path).comp.agent_argv = some (bname :: ts) := by
  rw [lookup_of_found w comp agent_list path p ts _ hs hb,
    xterm_argument_not_ssh w.prrte_xterm w.verbosity bname ts hne]

/-- With `prrte_xterm` set, the agent `ssh -x -q` keeps its three arguments. -/
theorem lookup_ssh_xterm_witness :
    (prrte_plm_rsh_search (ssh_rsh_world (some "1".toList) 0 VarSource.DEFAULT)
        (example_component (some "ssh -x -q : rsh".toList)).agent none none).argv =
        some ("/usr/bin/ssh".toList :: ["-x".toList, "-q".toList]) ∧
      prrte_basename "/usr/bin/ssh".toList = some "ssh".toList ∧
      (ssh_rsh_world (some "1".toList) 0 VarSource.DEFAULT).prrte_xterm.isSome = true ∧
      (rsh_launch_agent_lookup (ssh_rsh_world (some "1".toList) 0 VarSource.DEFAULT)
        (example_component (some "ssh -x -q : rsh".toList)) none none).comp.agent_argv =
        some (if ∃ a ∈ ["-x".toList, "-q".toList], a = "-X".toList ∨ a = "-x".toList then
            "ssh".toList :: ["-x".toList, "-q".toList]
          else "ssh".toList :: ["-x".toList, "-q".toList] ++ ["-X".toList]) :=
  ⟨by decide, by decide, by decide,
    lookup_ssh_xterm (ssh_rsh_world (some "1".toList) 0 VarSource.DEFAULT)
      (example_component (some "ssh -x -q : rsh".toList)) none none "/usr/bin/ssh".toList
      ["-x".toList, "-q".toList] (by decide) (by decide) (by decide)⟩

/-- With `prrte_xterm` not set and verbosity 0, the agent `ssh -q` gets `-x`
appended. -/
theorem lookup_ssh_no_xterm_witness :
    (prrte_plm_rsh_search (ssh_rsh_world none 0 VarSource.DEFAULT)
        (example_component (some "ssh -q : rsh".toList)).agent none none).argv =
        some ("/usr/bin/ssh".toList :: ["-q".toList]) ∧
      prrte_basename "/usr/bin/ssh".toList = some "ssh".toList ∧
      (ssh_rsh_world none 0 VarSource.DEFAULT).prrte_xterm = none ∧
      (rsh_launch_agent_lookup (ssh_rsh_world none 0 VarSource.DEFAULT)
        (example_component (some "ssh -q : rsh".toList)) none none).comp.agent_argv =
        some (if (ssh_rsh_world none 0 VarSource.DEFAULT).verbosity ≤ 0 ∧
              ∀ a ∈ ["-q".toList], a ≠ "-X".toList ∧ a ≠ "-x".toList then
            "ssh".toList :: ["-q".toList] ++ ["-x".toList]
          else "ssh".toList :: ["-q".toList]) :=
  ⟨by decide, by decide, by decide,
    lookup_ssh_no_xterm (ssh_rsh_world none 0 VarSource.DEFAULT)
      (example_component (some "ssh -q : rsh".toList)) none none "/usr/bin/ssh".toList
      ["-q".toList] (by decide) (by decide) (by decide)⟩

/-- The agent `rsh -l user` resolves to `rsh`, `-l`, `user` and gets no flag. -/
theorem lookup_not_ssh_witness :
    (prrte_plm_rsh_search rsh_world
        (example_component (some "ssh : rsh -l user".toList)).agent none none).argv =
        some ("/usr/bin/rsh".toList :: ["-l".toList, "user".toList]) ∧
      prrte_basename "/usr/bin/rsh".toList = some "rsh".toList ∧
      "rsh".toList ≠ "ssh".toList ∧
      (rsh_launch_agent_lookup rsh_world
        (example_component (some "ssh : rsh -l user".toList)) none none).comp.agent_argv =
        some ("rsh".toList :: ["-l".toList, "user".toList]) :=
  ⟨by decide, by decide, by decide,
    lookup_not_ssh rsh_world (example_component (some "ssh : rsh -l user".toList)) none none
      "/usr/bin/rsh".toList ["-l".toList, "user".toList] "rsh".toList (by decide) (by decide)
      (by decide)⟩

/-! ## The query -/

theorem lookup_frame (w : World) (comp : Component) (agent_list path : Option CStr) :
    (rsh_launch_agent_lookup w comp agent_list path).comp.using_qrsh = comp.using_qrsh ∧
      (rsh_launch_agent_lookup w comp agent_list path).comp.using_llspawn = comp.using_llspawn ∧
      (rsh_launch_agent_lookup w comp agent_list path).comp.agent = comp.agent := by
  unfold rsh_launch_agent_lookup
  split
  · exact ⟨rfl, rfl, rfl⟩
  · simp only
    split
    · exact ⟨rfl, rfl, rfl⟩
    · exact ⟨rfl, rfl, rfl⟩
    · split <;> exact ⟨rfl, rfl, rfl⟩

theorem lookup_probes (w : World) (comp : Component) (agent_list path : Option CStr) :
    (rsh_launch_agent_lookup w comp agent_list path).probes =
      (prrte_plm_rsh_search w comp.agent agent_list path).probes := by
  unfold rsh_launch_agent_lookup
  split
  · rename_i h
    simp only [Bool.and_eq_true, Option.isNone_iff_eq_none] at h
    rw [h.1, h.2]
    rfl
  · simp only
    split
    · rfl
    · rfl
    · split <;> rfl

theorem query_lookup_frame (w : World) (comp : Component) :
    (query_lookup w comp).lookups = [⟨none, none⟩] ∧
      (query_lookup w comp).probes = (rsh_launch_agent_lookup w comp none none).probes ∧
      (query_lookup w comp).comp = (rsh_launch_agent_lookup w comp none none).comp := by
  unfold query_lookup
  simp only
  split
  · split <;> exact ⟨rfl, rfl, rfl⟩
  · exact ⟨rfl, rfl, rfl⟩

/-- Claim C10: when the `agent` variable does not come from its default,
`rsh_component_query` goes straight to the lookup of the configured agent
list, whatever the environment and the disable flags are: the one lookup made
is `rsh_launch_agent_lookup(NULL, NULL)` (so neither `qrsh` nor `llspawn` is
looked up), the names probed are those of the search over the component's
`agent`, and `using_qrsh`, `using_llspawn` and `agent` keep their values. -/
theorem query_explicit_agent (w : World) (comp : Component)
    (hret : w.agent_var_get_value.1 = Status.PRRTE_SUCCESS)
    (hsrc : w.agent_var_get_value.2 ≠ VarSource.DEFAULT) :
    (rsh_component_query w comp).lookups = [⟨none, none⟩] ∧
      (rsh_component_query w comp).probes =
        (prrte_plm_rsh_search w comp.agent none none).probes ∧
      (rsh_component_query w comp).comp = (rsh_launch_agent_lookup w comp none none).comp ∧
      (rsh_component_query w comp).comp.using_qrsh = comp.using_qrsh ∧
      (rsh_component_query w comp).comp.using_llspawn = comp.using_llspawn ∧
      (rsh_component_query w comp).comp.agent = comp.agent := by
  have e : rsh_component_query w comp = query_lookup w comp := by
    unfold rsh_component_query
    rw [if_neg (by simp [hret]), if_pos hsrc]
  obtain ⟨h1, h2, h3⟩ := query_lookup_frame w comp
  obtain ⟨f1, f2, f3⟩ := lookup_frame w comp none none
  rw [e, h3]
  exact ⟨h1, by rw [h2, lookup_probes], rfl, f1, f2, f3⟩

/-- Inside a Grid Engine job that is also a LoadLeveler step, an agent `rsh` set on
the command line is the only thing looked up. -/
theorem query_explicit_agent_witness :
    grid_engine_world.agent_var_get_value.1 = Status.PRRTE_SUCCESS ∧
      grid_engine_world.agent_var_get_value.2 ≠ VarSource.DEFAULT ∧
      ((rsh_component_query grid_engine_world (example_component (some "rsh".toList))).lookups =
          [⟨none, none⟩] ∧
        (rsh_component_query grid_engine_world (example_component (some "rsh".toList))).probes =
          (prrte_plm_rsh_search grid_engine_world
            (example_component (some "rsh".toList)).agent none none).probes ∧
        (rsh_component_query grid_engine_world (example_component (some "rsh".toList))).comp =
          (rsh_launch_agent_lookup grid_engine_world
            (example_component (some "rsh".toList)) none none).comp ∧
        (rsh_component_query grid_engine_world
          (example_component (some "rsh".toList))).comp.using_qrsh =
          (example_component (some "rsh".toList)).using_qrsh ∧
        (rsh_component_query grid_engine_world
          (example_component (some "rsh".toList))).comp.using_llspawn =
          (example_component (some "rsh".toList)).using_llspawn ∧
        (rsh_component_query grid_engine_world
          (example_component (some "rsh".toList))).comp.agent =
          (example_component (some "rsh".toList)).agent) :=
  ⟨by decide, by decide,
    query_explicit_agent grid_engine_world (example_component (some "rsh".toList))
      (by decide) (by decide)⟩

/-! ## The query with the agent left at its default -/

theorem search_lines_none_found (w : World) (cwd : CStr) (lines : List CStr)
    (h : ∀ c ∈ candidates_of_lines lines, w.prrte_path_findv (c.headD []) cwd = none) :
    search_lines w cwd lines = ⟨none, (candidates_of_lines lines).map (probe_of cwd)⟩ := by
  induction lines with
  | nil => simp [search_lines, candidates_of_lines]
  | cons l rest ih =>
    rw [candidates_of_lines_cons] at h ⊢
    by_cases hl : trim_line l = []
    · rw [if_pos hl] at h ⊢
      have e : search_lines w cwd (l :: rest) = search_lines w cwd rest := by
        simp [search_lines, hl]
      rw [e]
      exact ih h
    · rw [if_neg hl] at h ⊢
      obtain ⟨u0, us, hsplit, _⟩ := argv_split_trim_line l hl
      have hlen : ¬ (trim_line l).length ≤ 0 := by
        simpa [List.length_eq_zero] using hl
      have hnone : w.prrte_path_findv u0 cwd = none := by
        have := h _ (List.mem_cons_self _ _)
        rw [hsplit] at this
        simpa using this
      have hrec := ih (fun c hc => h c (List.mem_cons_of_mem _ hc))
      simp [search_lines, hlen, hsplit, hnone, hrec, probe_of]

/-- The search over a list that is the single name `name`, a name that both
trimming loops and the split leave as it is. -/
theorem search_single_name (w : World) (agent path : Option CStr) (name : CStr)
    (h1 : prrte_argv_split name ':' = [name]) (h2 : trim_line name = name)
    (h3 : prrte_argv_split name (Char.ofNat 32) = [name]) (h4 : name ≠ []) :
    prrte_plm_rsh_search w agent (some name) path =
      match w.prrte_path_findv name (search_cwd w path) with
      | some tmp => ⟨some [tmp], [⟨name, search_cwd w path⟩]⟩
      | none => ⟨none, [⟨name, search_cwd w path⟩]⟩ := by
  have hlen : ¬ name.length ≤ 0 := by
    simpa [List.length_eq_zero] using h4
  simp only [prrte_plm_rsh_search, h1, search_lines, h2, if_neg hlen, h3]

theorem lookup_single_found (w : World) (comp : Component) (path : Option CStr) (name p : CStr)
    (h1 : prrte_argv_split name ':' = [name]) (h2 : trim_line name = name)
    (h3 : prrte_argv_split name (Char.ofNat 32) = [name]) (h4 : name ≠ [])
    (hf : w.prrte_path_findv name (search_cwd w path) = some p) :
    (rsh_launch_agent_lookup w comp (some name) path).ret = Status.PRRTE_SUCCESS ∧
      (rsh_launch_agent_lookup w comp (some name) path).probes = [⟨name, search_cwd w path⟩] := by
  have hs := search_single_name w comp.agent path name h1 h2 h3 h4
  rw [hf] at hs
  obtain ⟨bname, hb⟩ : ∃ bname, prrte_basename p = some bname := ⟨_, rfl⟩
  have hl := lookup_of_found w comp (some name) path p [] bname (by rw [hs]) hb
  rw [hl, hs]
  exact ⟨rfl, rfl⟩

theorem lookup_single_not_found (w : World) (comp : Component) (path : Option CStr)
    (name : CStr)
    (h1 : prrte_argv_split name ':' = [name]) (h2 : trim_line name = name)
    (h3 : prrte_argv_split name (Char.ofNat 32) = [name]) (h4 : name ≠ [])
    (hf : w.prrte_path_findv name (search_cwd w path) = none) :
    (rsh_launch_agent_lookup w comp (some name) path).ret = Status.PRRTE_ERR_NOT_FOUND ∧
      (rsh_launch_agent_lookup w comp (some name) path).probes = [⟨name, search_cwd w path⟩] := by
  have hs := search_single_name w comp.agent path name h1 h2 h3 h4
  rw [hf] at hs
  refine ⟨lookup_of_not_found w comp (some name) path (by rw [hs]), ?_⟩
  rw [lookup_probes, hs]

theorem grid_engine_rule_iff (w : World) (comp : Component) :
    grid_engine_rule w comp = true ↔
      (comp.disable_qrsh = false ∧ (w.getenv "SGE_ROOT".toList).isSome = true ∧
        (w.getenv "ARC".toList).isSome = true ∧ (w.getenv "PE_HOSTFILE".toList).isSome = true ∧
        (w.getenv "JOB_ID".toList).isSome = true) := by
  simp only [grid_engine_rule, Bool.and_eq_true, Bool.not_eq_true']
  tauto

theorem resource_manager_rule_iff (w : World) (comp : Component) :
    resource_manager_rule w comp = true ↔
      ((w.getenv "LOADL_STEP_ID".toList).isSome = true ∧ comp.disable_llspawn = false) := by
  simp only [resource_manager_rule, Bool.and_eq_true, Bool.not_eq_true']
  tauto

/-- The query when the agent is at its default and the grid-engine rule
matches. -/
theorem query_of_grid_engine (w : World) (comp : Component)
    (hret : w.agent_var_get_value.1 = Status.PRRTE_SUCCESS)
    (hsrc : w.agent_var_get_value.2 = VarSource.DEFAULT)
    (hrule : grid_engine_rule w comp = true) :
    rsh_component_query w comp =
      if (rsh_launch_agent_lookup w comp (some "qrsh".toList) (some (qrsh_path w))).ret ≠
          Status.PRRTE_SUCCESS then
        ⟨Status.PRRTE_ERROR, some ModulePtr.NULL, none,
          (rsh_launch_agent_lookup w comp (some "qrsh".toList) (some (qrsh_path w))).comp, none,
          [⟨some "qrsh".toList, some (qrsh_path w)⟩],
          (rsh_launch_agent_lookup w comp (some "qrsh".toList) (some (qrsh_path w))).probes⟩
      else
        query_success
          { (rsh_launch_agent_lookup w comp (some "qrsh".toList) (some (qrsh_path w))).comp with
            agent := some (qrsh_path w), using_qrsh := true }
          [⟨some "qrsh".toList, some (qrsh_path w)⟩]
          (rsh_launch_agent_lookup w comp (some "qrsh".toList) (some (qrsh_path w))).probes := by
  obtain ⟨h0, h1, h2, h3, h4⟩ := (grid_engine_rule_iff w comp).1 hrule
  obtain ⟨sge, hsge⟩ := Option.isSome_iff_exists.1 h1
  obtain ⟨arc, harc⟩ := Option.isSome_iff_exists.1 h2
  obtain ⟨pe, hpe⟩ := Option.isSome_iff_exists.1 h3
  obtain ⟨job, hjob⟩ := Option.isSome_iff_exists.1 h4
  unfold rsh_component_query
  rw [if_neg (by simp [hret]), if_neg (by simp [hsrc])]
  simp only [h0, hsge, harc, hpe, hjob, qrsh_path, Option.getD_some]

/-- The query when the agent is at its default and the grid-engine rule does
not match. -/
theorem query_of_not_grid_engine (w : World) (comp : Component)
    (hret : w.agent_var_get_value.1 = Status.PRRTE_SUCCESS)
    (hsrc : w.agent_var_get_value.2 = VarSource.DEFAULT)
    (hrule : grid_engine_rule w comp = false) :
    rsh_component_query w comp =
      if resource_manager_rule w comp = true then
        if (rsh_launch_agent_lookup w comp (some "llspawn".toList) none).ret ≠
            Status.PRRTE_SUCCESS then
          ⟨Status.PRRTE_ERROR, some ModulePtr.NULL, none,
            (rsh_launch_agent_lookup w comp (some "llspawn".toList) none).comp, none,
            [⟨some "llspawn".toList, none⟩],
            (rsh_launch_agent_lookup w comp (some "llspawn".toList) none).probes⟩
        else
          query_success
            { (rsh_launch_agent_lookup w comp (some "llspawn".toList) none).comp with
              agent := some "llspawn".toList, using_llspawn := true }
            [⟨some "llspawn".toList, none⟩]
            (rsh_launch_agent_lookup w comp (some "llspawn".toList) none).probes
      else query_lookup w comp := by
  unfold rsh_component_query
  rw [if_neg (by simp [hret]), if_neg (by simp [hsrc])]
  split
  · rename_i sge arc pe job h0 h1 h2 h3 h4
    exfalso
    have : grid_engine_rule w comp = true := by
      unfold grid_engine_rule
      rw [h0, h1, h2, h3, h4]
      rfl
    rw [this] at hrule
    exact Bool.noConfusion hrule
  · rfl

/-- The one call of `rsh_launch_agent_lookup` a query with the agent at its
default makes: for `qrsh` under the grid-engine rule, else for `llspawn` under
the resource-manager rule, else for the component's agent list. -/
theorem query_default_lookups (w : World) (comp : Component)
    (hret : w.agent_var_get_value.1 = Status.PRRTE_SUCCESS)
    (hsrc : w.agent_var_get_value.2 = VarSource.DEFAULT) :
    (rsh_component_query w comp).lookups =
      if grid_engine_rule w comp = true then [⟨some "qrsh".toList, some (qrsh_path w)⟩]
      else if resource_manager_rule w comp = true then [⟨some "llspawn".toList, none⟩]
      else [⟨none, none⟩] := by
  by_cases hg : grid_engine_rule w comp = true
  · rw [query_of_grid_engine w comp hret hsrc hg, if_pos hg]
    split <;> rfl
  · have hg2 : grid_engine_rule w comp = false := by simpa using hg
    rw [query_of_not_grid_engine w comp hret hsrc hg2, if_neg hg]
    by_cases hr : resource_manager_rule w comp = true
    · rw [if_pos hr, if_pos hr]
      split <;> rfl
    · rw [if_neg hr, if_neg hr]
      exact (query_lookup_frame w comp).1

/-- Claim C11: with the agent at its default, `rsh_component_query` looks up
`qrsh` (the grid-engine mechanism) exactly when `disable_qrsh` is false and
`SGE_ROOT`, `ARC`, `PE_HOSTFILE` and `JOB_ID` are all set; then, if `qrsh` is
found, the query succeeds, `using_qrsh` is true and `agent` is the value of
`SGE_ROOT`, `/bin/` and the value of `ARC`. -/
theorem query_grid_engine (w : World) (comp : Component)
    (hret : w.agent_var_get_value.1 = Status.PRRTE_SUCCESS)
    (hsrc : w.agent_var_get_value.2 = VarSource.DEFAULT) :
    ((∃ path, (⟨some "qrsh".toList, path⟩ : LookupCall) ∈ (rsh_component_query w comp).lookups) ↔
        (comp.disable_qrsh = false ∧ (w.getenv "SGE_ROOT".toList).isSome = true ∧
          (w.getenv "ARC".toList).isSome = true ∧
          (w.getenv "PE_HOSTFILE".toList).isSome = true ∧
          (w.getenv "JOB_ID".toList).isSome = true)) ∧
      ∀ sge arc p, comp.disable_qrsh = false → w.getenv "SGE_ROOT".toList = some sge →
        w.getenv "ARC".toList = some arc → (w.getenv "PE_HOSTFILE".toList).isSome = true →
        (w.getenv "JOB_ID".toList).isSome = true →
        w.prrte_path_findv "qrsh".toList
          (search_cwd w (some (sge ++ "/bin/".toList ++ arc))) = some p →
        (rsh_component_query w comp).ret = Status.PRRTE_SUCCESS ∧
          (rsh_component_query w comp).module = some ModulePtr.prrte_plm_rsh_module ∧
          (rsh_component_query w comp).comp.using_qrsh = true ∧
          (rsh_component_query w comp).comp.agent = some (sge ++ "/bin/".toList ++ arc) := by
  constructor
  · rw [query_default_lookups w comp hret hsrc, ← grid_engine_rule_iff]
    by_cases hg : grid_engine_rule w comp = true
    · rw [if_pos hg]
      exact ⟨fun _ => hg, fun _ => ⟨_, List.mem_singleton.2 rfl⟩⟩
    · rw [if_neg hg]
      refine ⟨fun h => ?_, fun h => absurd h hg⟩
      obtain ⟨path, hp⟩ := h
      exfalso
      split at hp
      · simp only [List.mem_singleton, LookupCall.mk.injEq, Option.some.injEq] at hp
        exact absurd hp.1 (by decide)
      · simp only [List.mem_singleton, LookupCall.mk.injEq] at hp
        exact absurd hp.1 (by simp)
  · intro sge arc p h0 hsge harc h3 h4 hf
    have hg : grid_engine_rule w comp = true :=
      (grid_engine_rule_iff w comp).2 ⟨h0, by rw [hsge]; rfl, by rw [harc]; rfl, h3, h4⟩
    have hq : qrsh_path w = sge ++ "/bin/".toList ++ arc := by
      simp only [qrsh_path, hsge, harc, Option.getD_some]
    rw [← hq] at hf ⊢
    have hl := lookup_single_found w comp (some (qrsh_path w)) "qrsh".toList p
      (by decide) (by decide) (by decide) (by decide) hf
    rw [query_of_grid_engine w comp hret hsrc hg, if_neg (not_not.2 hl.1)]
    exact ⟨rfl, rfl, rfl, rfl⟩

/-- Inside a Grid Engine job with `qrsh` installed, the default agent gives way
to `qrsh` and the agent string becomes `/sge/bin/lx`. -/
theorem query_grid_engine_witness :
    (rsh_component_query grid_engine_default_world
        (example_component (some "ssh : rsh".toList))).ret = Status.PRRTE_SUCCESS ∧
      (rsh_component_query grid_engine_default_world
        (example_component (some "ssh : rsh".toList))).module =
          some ModulePtr.prrte_plm_rsh_module ∧
      (rsh_component_query grid_engine_default_world
        (example_component (some "ssh : rsh".toList))).comp.using_qrsh = true ∧
      (rsh_component_query grid_engine_default_world
        (example_component (some "ssh : rsh".toList))).comp.agent =
          some ("/sge".toList ++ "/bin/".toList ++ "lx".toList) :=
  (query_grid_engine grid_engine_default_world (example_component (some "ssh : rsh".toList))
    (by decide) (by decide)).2 "/sge".toList "lx".toList "/sge/bin/lx/qrsh".toList
    (by decide) (by decide) (by decide) (by decide) (by decide) (by decide)

/-- Claim C12: with the agent at its default, when the grid-engine rule and the
resource-manager rule both match, only `qrsh` is looked up and probed and
`using_llspawn` keeps its value; and the component's own agent list is looked
up only when neither rule matches. -/
theorem query_grid_engine_first (w : World) (comp : Component)
    (hret : w.agent_var_get_value.1 = Status.PRRTE_SUCCESS)
    (hsrc : w.agent_var_get_value.2 = VarSource.DEFAULT) :
    (grid_engine_rule w comp = true → resource_manager_rule w comp = true →
        (rsh_component_query w comp).lookups = [⟨some "qrsh".toList, some (qrsh_path w)⟩] ∧
        (rsh_component_query w comp).probes =
          [⟨"qrsh".toList, search_cwd w (some (qrsh_path w))⟩] ∧
        (rsh_component_query w comp).comp.using_llspawn = comp.using_llspawn) ∧
      ((⟨none, none⟩ : LookupCall) ∈ (rsh_component_query w comp).lookups →
        grid_engine_rule w comp = false ∧ resource_manager_rule w comp = false) := by
  constructor
  · intro hg _
    refine ⟨by rw [query_default_lookups w comp hret hsrc, if_pos hg], ?_, ?_⟩
    · have hp : (rsh_launch_agent_lookup w comp (some "qrsh".toList) (some (qrsh_path w))).probes =
          [⟨"qrsh".toList, search_cwd w (some (qrsh_path w))⟩] := by
        cases hf : w.prrte_path_findv "qrsh".toList (search_cwd w (some (qrsh_path w))) with
        | none =>
          exact (lookup_single_not_found w comp (some (qrsh_path w)) "qrsh".toList
            (by decide) (by decide) (by decide) (by decide) hf).2
        | some p =>
          exact (lookup_single_found w comp (some (qrsh_path w)) "qrsh".toList p
            (by decide) (by decide) (by decide) (by decide) hf).2
      rw [query_of_grid_engine w comp hret hsrc hg]
      split <;> exact hp
    · have hfr := (lookup_frame w comp (some "qrsh".toList) (some (qrsh_path w))).2.1
      rw [query_of_grid_engine w comp hret hsrc hg]
      split <;> exact hfr
  · intro hm
    rw [query_default_lookups w comp hret hsrc] at hm
    by_cases hg : grid_engine_rule w comp = true
    · rw [if_pos hg] at hm
      simp only [List.mem_singleton, LookupCall.mk.injEq] at hm
      exact absurd hm.1 (by simp)
    · rw [if_neg hg] at hm
      by_cases hr : resource_manager_rule w comp = true
      · rw [if_pos hr] at hm
        simp only [List.mem_singleton, LookupCall.mk.injEq] at hm
        exact absurd hm.1 (by simp)
      · exact ⟨by simpa using hg, by simpa using hr⟩

/-- Inside a Grid Engine job that is also a LoadLeveler step only `qrsh` is
looked up. -/
theorem query_grid_engine_first_witness :
    (rsh_component_query grid_engine_default_world
        (example_component (some "ssh : rsh".toList))).lookups =
        [⟨some "qrsh".toList, some (qrsh_path grid_engine_default_world)⟩] ∧
      (rsh_component_query grid_engine_default_world
          (example_component (some "ssh : rsh".toList))).probes =
        [⟨"qrsh".toList,
          search_cwd grid_engine_default_world (some (qrsh_path grid_engine_default_world))⟩] ∧
      (rsh_component_query grid_engine_default_world
          (example_component (some "ssh : rsh".toList))).comp.using_llspawn =
        (example_component (some "ssh : rsh".toList)).using_llspawn :=
  (query_grid_engine_first grid_engine_default_world
    (example_component (some "ssh : rsh".toList)) (by decide) (by decide)).1
    (by decide) (by decide)

/-- Claim C13: with the agent at its default and the grid-engine rule not
matching, `rsh_component_query` looks up `llspawn` (the resource-manager
mechanism) exactly when `LOADL_STEP_ID` is set and `disable_llspawn` is false;
then, if `llspawn` is found, the query succeeds, `using_llspawn` is true,
`using_qrsh` keeps its value and `agent` is `llspawn`. -/
theorem query_resource_manager (w : World) (comp : Component)
    (hret : w.agent_var_get_value.1 = Status.PRRTE_SUCCESS)
    (hsrc : w.agent_var_get_value.2 = VarSource.DEFAULT)
    (hg : grid_engine_rule w comp = false) :
    ((∃ path, (⟨some "llspawn".toList, path⟩ : LookupCall) ∈
          (rsh_component_query w comp).lookups) ↔
        ((w.getenv "LOADL_STEP_ID".toList).isSome = true ∧ comp.disable_llspawn = false)) ∧
      ∀ p, (w.getenv "LOADL_STEP_ID".toList).isSome = true → comp.disable_llspawn = false →
        w.prrte_path_findv "llspawn".toList (search_cwd w none) = some p →
        (rsh_component_query w comp).ret = Status.PRRTE_SUCCESS ∧
          (rsh_component_query w comp).module = some ModulePtr.prrte_plm_rsh_module ∧
          (rsh_component_query w comp).comp.using_llspawn = true ∧
          (rsh_component_query w comp).comp.using_qrsh = comp.using_qrsh ∧
          (rsh_component_query w comp).comp.agent = some "llspawn".toList := by
  have hg1 : ¬ grid_engine_rule w comp = true := by simp [hg]
  constructor
  · rw [query_default_lookups w comp hret hsrc, if_neg hg1, ← resource_manager_rule_iff]
    by_cases hr : resource_manager_rule w comp = true
    · rw [if_pos hr]
      exact ⟨fun _ => hr, fun _ => ⟨_, List.mem_singleton.2 rfl⟩⟩
    · rw [if_neg hr]
      refine ⟨fun h => ?_, fun h => absurd h hr⟩
      obtain ⟨path, hp⟩ := h
      simp only [List.mem_singleton, LookupCall.mk.injEq] at hp
      exact absurd hp.1 (by simp)
  · intro p h1 h2 hf
    have hr : resource_manager_rule w comp = true := (resource_manager_rule_iff w comp).2 ⟨h1, h2⟩
    have hl := lookup_single_found w comp none "llspawn".toList p
      (by decide) (by decide) (by decide) (by decide) hf
    have hfr := (lookup_frame w comp (some "llspawn".toList) none).1
    rw [query_of_not_grid_engine w comp hret hsrc hg, if_pos hr, if_neg (not_not.2 hl.1)]
    exact ⟨rfl, rfl, rfl, hfr, rfl⟩

/-- Inside a LoadLeveler step with `llspawn` installed, the default agent gives
way to `llspawn`. -/
theorem query_resource_manager_witness :
    (rsh_component_query loadleveler_world
        (example_component (some "ssh : rsh".toList))).ret = Status.PRRTE_SUCCESS ∧
      (rsh_component_query loadleveler_world
        (example_component (some "ssh : rsh".toList))).module =
          some ModulePtr.prrte_plm_rsh_module ∧
      (rsh_component_query loadleveler_world
        (example_component (some "ssh : rsh".toList))).comp.using_llspawn = true ∧
      (rsh_component_query loadleveler_world
        (example_component (some "ssh : rsh".toList))).comp.using_qrsh =
          (example_component (some "ssh : rsh".toList)).using_qrsh ∧
      (rsh_component_query loadleveler_world
        (example_component (some "ssh : rsh".toList))).comp.agent = some "llspawn".toList :=
  (query_resource_manager loadleveler_world (example_component (some "ssh : rsh".toList))
    (by decide) (by decide) (by decide)).2 "/usr/bin/llspawn".toList
    (by decide) (by decide) (by decide)

/-- Claim C14: with the agent at its default, when the grid-engine rule matches
and `qrsh` is not found, or the resource-manager rule is the one that matches
and `llspawn` is not found, `rsh_component_query` returns `PRRTE_ERROR` with
`*module = NULL` and without `PRRTE_FORCED_TERMINATE`; the one lookup and the
one probe made are those of that mechanism, whatever else is installed. -/
theorem query_mechanism_not_found (w : World) (comp : Component)
    (hret : w.agent_var_get_value.1 = Status.PRRTE_SUCCESS)
    (hsrc : w.agent_var_get_value.2 = VarSource.DEFAULT) :
    (grid_engine_rule w comp = true →
        w.prrte_path_findv "qrsh".toList (search_cwd w (some (qrsh_path w))) = none →
        (rsh_component_query w comp).ret = Status.PRRTE_ERROR ∧
        (rsh_component_query w comp).module = some ModulePtr.NULL ∧
        (rsh_component_query w comp).forced_terminate = none ∧
        (rsh_component_query w comp).lookups = [⟨some "qrsh".toList, some (qrsh_path w)⟩] ∧
        (rsh_component_query w comp).probes =
          [⟨"qrsh".toList, search_cwd w (some (qrsh_path w))⟩]) ∧
      (grid_engine_rule w comp = false → resource_manager_rule w comp = true →
        w.prrte_path_findv "llspawn".toList (search_cwd w none) = none →
        (rsh_component_query w comp).ret = Status.PRRTE_ERROR ∧
        (rsh_component_query w comp).module = some ModulePtr.NULL ∧
        (rsh_component_query w comp).forced_terminate = none ∧
        (rsh_component_query w comp).lookups = [⟨some "llspawn".toList, none⟩] ∧
        (rsh_component_query w comp).probes = [⟨"llspawn".toList, search_cwd w none⟩]) := by
  constructor
  · intro hg hf
    have hl := lookup_single_not_found w comp (some (qrsh_path w)) "qrsh".toList
      (by decide) (by decide) (by decide) (by decide) hf
    have hne : (rsh_launch_agent_lookup w comp (some "qrsh".toList) (some (qrsh_path w))).ret ≠
        Status.PRRTE_SUCCESS := by
      rw [hl.1]
      decide
    rw [query_of_grid_engine w comp hret hsrc hg, if_pos hne]
    exact ⟨rfl, rfl, rfl, rfl, hl.2⟩
  · intro hg hr hf
    have hl := lookup_single_not_found w comp none "llspawn".toList
      (by decide) (by decide) (by decide) (by decide) hf
    have hne : (rsh_launch_agent_lookup w comp (some "llspawn".toList) none).ret ≠
        Status.PRRTE_SUCCESS := by
      rw [hl.1]
      decide
    rw [query_of_not_grid_engine w comp hret hsrc hg, if_pos hr, if_pos hne]
    exact ⟨rfl, rfl, rfl, rfl, hl.2⟩

/-- Inside a Grid Engine job without `qrsh` the query reports the module
unavailable although `ssh` and `rsh` are installed; only `qrsh` was probed. -/
theorem query_mechanism_not_found_witness :
    grid_engine_no_qrsh_world.prrte_path_findv "ssh".toList "/home/user".toList =
        some "/usr/bin/ssh".toList ∧
      ((rsh_component_query grid_engine_no_qrsh_world
          (example_component (some "ssh : rsh".toList))).ret = Status.PRRTE_ERROR ∧
        (rsh_component_query grid_engine_no_qrsh_world
          (example_component (some "ssh : rsh".toList))).module = some ModulePtr.NULL ∧
        (rsh_component_query grid_engine_no_qrsh_world
          (example_component (some "ssh : rsh".toList))).forced_terminate = none ∧
        (rsh_component_query grid_engine_no_qrsh_world
          (example_component (some "ssh : rsh".toList))).lookups =
            [⟨some "qrsh".toList, some (qrsh_path grid_engine_no_qrsh_world)⟩] ∧
        (rsh_component_query grid_engine_no_qrsh_world
          (example_component (some "ssh : rsh".toList))).probes =
            [⟨"qrsh".toList,
              search_cwd grid_engine_no_qrsh_world
                (some (qrsh_path grid_engine_no_qrsh_world))⟩]) :=
  ⟨by decide,
    (query_mechanism_not_found grid_engine_no_qrsh_world
      (example_component (some "ssh : rsh".toList)) (by decide) (by decide)).1
      (by decide) (by decide)⟩

/-! ## The query when nothing is found -/

theorem lookup_none_found (w : World) (comp : Component) (a : CStr)
    (ha : comp.agent = some a)
    (hnf : ∀ c ∈ candidates a, w.prrte_path_findv (c.headD []) (search_cwd w none) = none) :
    (rsh_launch_agent_lookup w comp none none).ret = Status.PRRTE_ERR_NOT_FOUND ∧
      (rsh_launch_agent_lookup w comp none none).probes =
        (candidates a).map (probe_of (search_cwd w none)) := by
  have hs : prrte_plm_rsh_search w comp.agent none none =
      ⟨none, (candidates a).map (probe_of (search_cwd w none))⟩ := by
    rw [search_eq_search_lines w comp.agent none none a (Or.inr ⟨rfl, ha⟩)]
    exact search_lines_none_found w _ _ hnf
  refine ⟨lookup_of_not_found w comp none none (by rw [hs]), ?_⟩
  rw [lookup_probes, hs]

/-- Claim C15: when the `agent` variable does not come from its default and no
candidate of the configured list is found, `rsh_component_query` calls
`PRRTE_FORCED_TERMINATE(PRRTE_ERR_NOT_FOUND)` and returns `PRRTE_ERR_FATAL`;
`*module` is not written, the only lookup is that of the configured list and
only its candidates were probed. -/
theorem query_explicit_agent_not_found (w : World) (comp : Component) (a : CStr)
    (hret : w.agent_var_get_value.1 = Status.PRRTE_SUCCESS)
    (hsrc : w.agent_var_get_value.2 ≠ VarSource.DEFAULT)
    (ha : comp.agent = some a)
    (hnf : ∀ c ∈ candidates a, w.prrte_path_findv (c.headD []) (search_cwd w none) = none) :
    (rsh_component_query w comp).ret = Status.PRRTE_ERR_FATAL ∧
      (rsh_component_query w comp).forced_terminate = some Status.PRRTE_ERR_NOT_FOUND ∧
      (rsh_component_query w comp).module = none ∧
      (rsh_component_query w comp).lookups = [⟨none, none⟩] ∧
      (rsh_component_query w comp).probes =
        (candidates a).map (probe_of (search_cwd w none)) := by
  have e : rsh_component_query w comp = query_lookup w comp := by
    unfold rsh_component_query
    rw [if_neg (by simp [hret]), if_pos hsrc]
  obtain ⟨hl1, hl2⟩ := lookup_none_found w comp a ha hnf
  have hne : (rsh_launch_agent_lookup w comp none none).ret ≠ Status.PRRTE_SUCCESS := by
    rw [hl1]
    decide
  have hag : (rsh_launch_agent_lookup w comp none none).comp.agent.isSome = true := by
    rw [(lookup_frame w comp none none).2.2, ha]
    rfl
  rw [e]
  unfold query_lookup
  simp only [if_pos hne, if_pos hag]
  exact ⟨trivial, trivial, trivial, trivial, hl2⟩

/-- With nothing installed, an agent `totally-nonexistent-agent` given on the
command line ends the run. -/
theorem query_explicit_agent_not_found_witness :
    (rsh_component_query (bare_world VarSource.COMMAND_LINE)
        (example_component (some "totally-nonexistent-agent".toList))).ret =
        Status.PRRTE_ERR_FATAL ∧
      (rsh_component_query (bare_world VarSource.COMMAND_LINE)
        (example_component (some "totally-nonexistent-agent".toList))).forced_terminate =
        some Status.PRRTE_ERR_NOT_FOUND ∧
      (rsh_component_query (bare_world VarSource.COMMAND_LINE)
        (example_component (some "totally-nonexistent-agent".toList))).module = none ∧
      (rsh_component_query (bare_world VarSource.COMMAND_LINE)
        (example_component (some "totally-nonexistent-agent".toList))).lookups =
        [⟨none, none⟩] ∧
      (rsh_component_query (bare_world VarSource.COMMAND_LINE)
        (example_component (some "totally-nonexistent-agent".toList))).probes =
        (candidates "totally-nonexistent-agent".toList).map
          (probe_of (search_cwd (bare_world VarSource.COMMAND_LINE) none)) :=
  query_explicit_agent_not_found (bare_world VarSource.COMMAND_LINE)
    (example_component (some "totally-nonexistent-agent".toList))
    "totally-nonexistent-agent".toList (by decide) (by decide) rfl (by decide)

/-- Claim C16, the code at the registered defaults: with the agent left at
`ssh : rsh`, its source the default, no Grid Engine or LoadLeveler variable set
and neither `ssh` nor `rsh` installed, `rsh_component_query` calls
`PRRTE_FORCED_TERMINATE(PRRTE_ERR_NOT_FOUND)` and returns `PRRTE_ERR_FATAL`
without writing `*module`. -/
theorem query_default_agent_not_found_fatal :
    (rsh_component_register (bare_world VarSource.DEFAULT) initial_component).2.agent =
        some "ssh : rsh".toList ∧
      (rsh_component_query (bare_world VarSource.DEFAULT)
        (rsh_component_open
          (rsh_component_register (bare_world VarSource.DEFAULT) initial_component).2).comp).ret =
        Status.PRRTE_ERR_FATAL ∧
      (rsh_component_query (bare_world VarSource.DEFAULT)
        (rsh_component_open
          (rsh_component_register (bare_world VarSource.DEFAULT)
            initial_component).2).comp).forced_terminate =
        some Status.PRRTE_ERR_NOT_FOUND ∧
      (rsh_component_query (bare_world VarSource.DEFAULT)
        (rsh_component_open
          (rsh_component_register (bare_world VarSource.DEFAULT)
            initial_component).2).comp).module = none ∧
      (rsh_component_query (bare_world VarSource.DEFAULT)
        (rsh_component_open
          (rsh_component_register (bare_world VarSource.DEFAULT)
            initial_component).2).comp).lookups = [⟨none, none⟩] := by
  decide

/-! ## Registration and opening -/

theorem open_delay_num_concurrent (comp : Component) (s : CStr) :
    (open_delay comp s).num_concurrent = comp.num_concurrent := by
  unfold open_delay
  simp only
  split <;> rfl

/-- Claim C17: `rsh_component_open` always returns `PRRTE_SUCCESS`; afterwards
`num_concurrent` is 1 when the configured value was at most 0 and is the
configured value otherwise, so it is positive in every case. -/
theorem open_num_concurrent (comp : Component) :
    (rsh_component_open comp).ret = Status.PRRTE_SUCCESS ∧
      (rsh_component_open comp).comp.num_concurrent =
        (if comp.num_concurrent ≤ 0 then 1 else comp.num_concurrent) ∧
      0 < (rsh_component_open comp).comp.num_concurrent := by
  have key : (rsh_component_open comp).comp.num_concurrent =
      (if comp.num_concurrent ≤ 0 then 1 else comp.num_concurrent) := by
    unfold rsh_component_open
    by_cases h : comp.num_concurrent ≤ 0
    · simp only [h, decide_True, if_true]
      cases comp.delay_string with
      | none => rfl
      | some s => exact open_delay_num_concurrent _ s
    · simp only [h, decide_False, if_false, Bool.false_eq_true]
      cases comp.delay_string with
      | none => rfl
      | some s => exact open_delay_num_concurrent _ s
  refine ⟨rfl, key, ?_⟩
  rw [key]
  split <;> omega

/-- Claim C19: `rsh_component_register` returns `PRRTE_SUCCESS`, and when the
configuration holds no value for any variable the component has the defaults:
agent list `ssh : rsh`, concurrency limit 128, no delay string, `disable_qrsh`,
`disable_llspawn` and `no_tree_spawn` false. -/
theorem register_defaults (w : World) (comp : Component)
    (hint : ∀ name, w.var_int name = none) (hbool : ∀ name, w.var_bool name = none)
    (hstr : ∀ name, w.var_string name = none) :
    (rsh_component_register w comp).1 = Status.PRRTE_SUCCESS ∧
      (rsh_component_register w comp).2.agent = some "ssh : rsh".toList ∧
      (rsh_component_register w comp).2.num_concurrent = 128 ∧
      (rsh_component_register w comp).2.delay_string = none ∧
      (rsh_component_register w comp).2.disable_qrsh = false ∧
      (rsh_component_register w comp).2.disable_llspawn = false ∧
      (rsh_component_register w comp).2.no_tree_spawn = false := by
  simp only [rsh_component_register, var_register_int, var_register_bool, var_register_string,
    hint, hbool, hstr, Option.getD_none, and_self]

/-- With a configuration that sets nothing, registration leaves the documented
defaults. -/
theorem register_defaults_witness :
    (rsh_component_register (bare_world VarSource.DEFAULT) initial_component).1 =
        Status.PRRTE_SUCCESS ∧
      (rsh_component_register (bare_world VarSource.DEFAULT) initial_component).2.agent =
        some "ssh : rsh".toList ∧
      (rsh_component_register (bare_world VarSource.DEFAULT) initial_component).2.num_concurrent =
        128 ∧
      (rsh_component_register (bare_world VarSource.DEFAULT) initial_component).2.delay_string =
        none ∧
      (rsh_component_register (bare_world VarSource.DEFAULT) initial_component).2.disable_qrsh =
        false ∧
      (rsh_component_register (bare_world VarSource.DEFAULT) initial_component).2.disable_llspawn =
        false ∧
      (rsh_component_register (bare_world VarSource.DEFAULT) initial_component).2.no_tree_spawn =
        false :=
  register_defaults (bare_world VarSource.DEFAULT) initial_component (fun _ => rfl)
    (fun _ => rfl) (fun _ => rfl)

/-! ## The delay string -/

theorem digits_value_append (ds : List Char) (c : Char) :
    digits_value (ds ++ [c]) = 10 * digits_value ds + digit_val c := by
  simp [digits_value, List.foldl_append]

theorem digits_value_eq_ofDigits (ds : List Char) :
    digits_value ds = Nat.ofDigits (10 : Nat) (ds.map digit_val).reverse := by
  induction ds using List.reverseRecOn with
  | nil => simp [digits_value]
  | append_singleton ds c ih =>
    rw [digits_value_append, ih]
    simp [Nat.ofDigits_cons]
    omega

theorem is_digit_not_space (c : Char) (h : is_digit c = true) : isspace c = false := by
  cases hs : isspace c with
  | false => rfl
  | true =>
    exfalso
    simp only [isspace, Bool.or_eq_true, beq_iff_eq] at hs
    rcases hs with ((((h1 | h1) | h1) | h1) | h1) | h1 <;> subst h1 <;> revert h <;> decide

theorem is_digit_ne (c : Char) (h : is_digit c = true) : c ≠ '-' ∧ c ≠ '+' ∧ c ≠ ':' := by
  refine ⟨?_, ?_, ?_⟩ <;> intro h1 <;> subst h1 <;> revert h <;> decide

theorem takeWhile_digits (ds rest : CStr) (hds : ds.all is_digit = true)
    (hrest : ∀ c, rest.head? = some c → is_digit c = false) :
    (ds ++ rest).takeWhile is_digit = ds := by
  have h1 : ∀ a ∈ ds, is_digit a = true := by simpa [List.all_eq_true] using hds
  rw [List.takeWhile_append_of_pos h1]
  cases rest with
  | nil => simp
  | cons c cs =>
    have := hrest c rfl
    simp [List.takeWhile_cons, this]

theorem is_numeral_iff (sg ds : CStr) :
    is_numeral sg ds = true ↔
      ((sg = [] ∨ sg = ['+'] ∨ sg = ['-']) ∧ ds ≠ [] ∧ ds.all is_digit = true) := by
  simp only [is_numeral, Bool.and_eq_true, Bool.or_eq_true, beq_iff_eq, Bool.not_eq_true',
    List.isEmpty_eq_false]
  constructor
  · rintro ⟨⟨h1, h2⟩, h3⟩
    refine ⟨?_, h2, h3⟩
    tauto
  · rintro ⟨h1, h2, h3⟩
    exact ⟨⟨by tauto, h2⟩, h3⟩

theorem strtol_subject_numeral (k : Nat) (sg ds rest : CStr) (hn : is_numeral sg ds = true)
    (hrest : ∀ c, rest.head? = some c → is_digit c = false) :
    strtol_subject k (sg ++ ds ++ rest) =
      ⟨max LONG_MIN (min LONG_MAX (numeral_value sg ds)), k + sg.length + ds.length⟩ := by
  obtain ⟨hsg, hne, hall⟩ := (is_numeral_iff sg ds).1 hn
  have htw := takeWhile_digits ds rest hall hrest
  have hemp : ds.isEmpty = false := by simpa using hne
  obtain ⟨d, ds1, hd⟩ : ∃ d ds1, ds = d :: ds1 := by
    cases ds with
    | nil => exact absurd rfl hne
    | cons d ds1 => exact ⟨d, ds1, rfl⟩
  have hdig : is_digit d = true := by
    rw [hd] at hall
    simp only [List.all_cons, Bool.and_eq_true] at hall
    exact hall.1
  obtain ⟨hm, hp, _⟩ := is_digit_ne d hdig
  rcases hsg with h | h | h
  · subst h
    have hh : (ds ++ rest).head? = some d := by rw [hd]; rfl
    have e1 : ((some d : Option Char) == some '-') = false := by simpa using hm
    have e2 : ((some d : Option Char) == some '+') = false := by simpa using hp
    have hne2 : ¬ ([] : CStr) = ['-'] := by decide
    simp only [List.nil_append, strtol_subject, hh, e1, e2, Bool.or_false, Bool.false_eq_true,
      if_false, htw, hemp, numeral_value, digits_value_eq_ofDigits, List.length_nil,
      Nat.add_zero, if_neg hne2]
  · subst h
    have hh : (['+'] ++ ds ++ rest).head? = some '+' := rfl
    have e1 : ((some '+' : Option Char) == some '-') = false := by decide
    have e2 : ((some '+' : Option Char) == some '+') = true := by decide
    have ht : (['+'] ++ ds ++ rest).tail = ds ++ rest := rfl
    have hne2 : ¬ (['+'] : CStr) = ['-'] := by decide
    simp only [strtol_subject, hh, e1, e2, Bool.or_true, Bool.false_or, if_true, ht, htw, hemp,
      Bool.false_eq_true, if_false, numeral_value, digits_value_eq_ofDigits, if_neg hne2,
      List.length_singleton]
  · subst h
    have hh : (['-'] ++ ds ++ rest).head? = some '-' := rfl
    have e1 : ((some '-' : Option Char) == some '-') = true := by decide
    have ht : (['-'] ++ ds ++ rest).tail = ds ++ rest := rfl
    simp only [strtol_subject, hh, e1, Bool.true_or, if_true, ht, htw, hemp,
      Bool.false_eq_true, if_false, numeral_value, digits_value_eq_ofDigits,
      List.length_singleton]

theorem numeral_head_not_space (sg ds rest : CStr) (hn : is_numeral sg ds = true) :
    (sg ++ ds ++ rest).takeWhile isspace = [] ∧ (sg ++ ds ++ rest).dropWhile isspace =
      sg ++ ds ++ rest := by
  obtain ⟨hsg, hne, hall⟩ := (is_numeral_iff sg ds).1 hn
  obtain ⟨d, ds1, hd⟩ : ∃ d ds1, ds = d :: ds1 := by
    cases ds with
    | nil => exact absurd rfl hne
    | cons d ds1 => exact ⟨d, ds1, rfl⟩
  have hdig : is_digit d = true := by
    rw [hd] at hall
    simp only [List.all_cons, Bool.and_eq_true] at hall
    exact hall.1
  have hsp := is_digit_not_space d hdig
  rcases hsg with h | h | h
  · subst h hd
    simp [List.takeWhile_cons, List.dropWhile_cons, hsp]
  · subst h
    have : isspace '+' = false := by decide
    simp [List.takeWhile_cons, List.dropWhile_cons, this]
  · subst h
    have : isspace '-' = false := by decide
    simp [List.takeWhile_cons, List.dropWhile_cons, this]

/-- `strtol` on a numeral followed by something that does not start with a
digit: the value is the integer denoted, brought into the range of `long`,
and `endptr` is just after the numeral. -/
theorem strtol_numeral (sg ds rest : CStr) (hn : is_numeral sg ds = true)
    (hrest : ∀ c, rest.head? = some c → is_digit c = false) :
    strtol (sg ++ ds ++ rest) =
      ⟨max LONG_MIN (min LONG_MAX (numeral_value sg ds)), sg.length + ds.length⟩ := by
  obtain ⟨h1, h2⟩ := numeral_head_not_space sg ds rest hn
  unfold strtol
  rw [h1, h2, List.length_nil, strtol_subject_numeral 0 sg ds rest hn hrest, Nat.zero_add]

theorem strtol_subject_endptr_zero (k : Nat) (t : CStr)
    (h : ∀ sg ds rest, is_numeral sg ds = true → t ≠ sg ++ ds ++ rest) :
    (strtol_subject k t).endptr = 0 := by
  have key : ∀ (sg body : CStr), (sg = [] ∨ sg = ['+'] ∨ sg = ['-']) → t = sg ++ body →
      (body.takeWhile is_digit).isEmpty = true := by
    intro sg body hsg ht
    cases hd : (body.takeWhile is_digit).isEmpty with
    | true => rfl
    | false =>
      exfalso
      refine h sg (body.takeWhile is_digit) (body.dropWhile is_digit) ?_ ?_
      · rw [is_numeral_iff]
        refine ⟨hsg, by simpa using hd, ?_⟩
        rw [List.all_eq_true]
        intro c hc
        exact List.mem_takeWhile_imp hc
      · rw [List.append_assoc, List.takeWhile_append_dropWhile]
        exact ht
  cases t with
  | nil =>
    simp [strtol_subject]
  | cons c r =>
    by_cases hm : c = '-'
    · subst hm
      have := key ['-'] r (Or.inr (Or.inr rfl)) rfl
      simp [strtol_subject, this]
    · by_cases hp : c = '+'
      · subst hp
        have := key ['+'] r (Or.inr (Or.inl rfl)) rfl
        simp [strtol_subject, this]
      · have := key [] (c :: r) (Or.inl rfl) rfl
        simp [strtol_subject, hm, hp, this]

theorem strtol_endptr_zero (s : CStr)
    (h : ∀ ws sg ds rest, ws.all isspace = true → is_numeral sg ds = true →
      s ≠ ws ++ sg ++ ds ++ rest) :
    (strtol s).endptr = 0 := by
  unfold strtol
  apply strtol_subject_endptr_zero
  intro sg ds rest hn hs
  refine h (s.takeWhile isspace) sg ds rest ?_ hn ?_
  · rw [List.all_eq_true]
    intro c hc
    exact List.mem_takeWhile_imp hc
  · rw [List.append_assoc, List.append_assoc, ← List.append_assoc sg, ← hs,
      List.takeWhile_append_dropWhile]

theorem open_delay_sec (c : Component) (s : CStr) :
    (open_delay c s).delay_tv_sec = if (strtol s).endptr = 0 then 0 else (strtol s).value := by
  unfold open_delay
  simp only
  split <;> rfl

theorem open_delay_nsec (c : Component) (s : CStr) :
    (open_delay c s).delay_tv_nsec =
      if (s.drop (strtol s).endptr).head? = some ':' then
        wrap_long (1000 * (strtol (s.drop ((strtol s).endptr + 1))).value)
      else c.delay_tv_nsec := by
  unfold open_delay
  simp only
  split <;> rfl

theorem open_delay_fields (comp : Component) (s : CStr) (hs : comp.delay_string = some s) :
    (rsh_component_open comp).comp.delay_tv_sec = (open_delay comp s).delay_tv_sec ∧
      (rsh_component_open comp).comp.delay_tv_nsec = (open_delay comp s).delay_tv_nsec := by
  unfold rsh_component_open
  by_cases h : comp.num_concurrent ≤ 0
  · simp only [h, decide_True, if_true, hs]
    rw [open_delay_sec, open_delay_sec, open_delay_nsec, open_delay_nsec]
    exact ⟨rfl, rfl⟩
  · simp only [h, decide_False, if_false, Bool.false_eq_true, hs]
    rw [open_delay_sec, open_delay_sec, open_delay_nsec, open_delay_nsec]
    exact ⟨rfl, rfl⟩

theorem clamp_long_of_range (v : Int) (h1 : LONG_MIN ≤ v) (h2 : v ≤ LONG_MAX) :
    max LONG_MIN (min LONG_MAX v) = v := by
  rw [min_eq_right h2, max_eq_right h1]

theorem wrap_long_of_range (v : Int) (h1 : LONG_MIN ≤ v) (h2 : v ≤ LONG_MAX) :
    wrap_long v = v := by
  unfold LONG_MIN at h1
  unfold LONG_MAX at h2
  unfold wrap_long
  rw [Int.emod_eq_of_lt (by omega) (by omega)]
  omega

theorem numeral_length_pos (sg ds : CStr) (hn : is_numeral sg ds = true) :
    sg.length + ds.length ≠ 0 := by
  obtain ⟨_, hne, _⟩ := (is_numeral_iff sg ds).1 hn
  have : ds.length ≠ 0 := fun h => hne (List.length_eq_zero.1 h)
  omega

theorem open_delay_of_numeral (c : Component) (sg ds rest : CStr)
    (hn : is_numeral sg ds = true)
    (hrest : ∀ x, rest.head? = some x → is_digit x = false)
    (h1 : LONG_MIN ≤ numeral_value sg ds) (h2 : numeral_value sg ds ≤ LONG_MAX) :
    (open_delay c (sg ++ ds ++ rest)).delay_tv_sec = numeral_value sg ds ∧
      (open_delay c (sg ++ ds ++ rest)).delay_tv_nsec =
        if rest.head? = some ':' then wrap_long (1000 * (strtol rest.tail).value)
        else c.delay_tv_nsec := by
  have hst := strtol_numeral sg ds rest hn hrest
  have hlen : (sg ++ ds).length = sg.length + ds.length := List.length_append sg ds
  have hdrop : (sg ++ ds ++ rest).drop (sg.length + ds.length) = rest := by
    rw [← hlen]
    exact List.drop_left (sg ++ ds) rest
  have hdrop1 : (sg ++ ds ++ rest).drop (sg.length + ds.length + 1) = rest.tail := by
    rw [← List.drop_drop, hdrop]
    cases rest <;> rfl
  constructor
  · rw [open_delay_sec, hst]
    simp only
    rw [if_neg (numeral_length_pos sg ds hn), clamp_long_of_range _ h1 h2]
  · rw [open_delay_nsec, hst]
    simp only
    rw [hdrop, hdrop1]

/-- Claim C18, as amended: for a delay string `s`, `rsh_component_open` stores
`tv_sec = S` and leaves `tv_nsec` untouched when `s` writes a decimal integer
`S` that fits in a `long`; stores `tv_sec = S` and `tv_nsec = 1000 * U` when
`s` is such an `S`, a colon and a decimal integer `U` with `1000 * U` in the
range of `long`; stores `tv_sec = 0` when `s` does not start (after optional
whitespace) with a decimal integer; and leaves `tv_nsec` untouched when `s`
has no colon. -/
theorem open_delay_parse (comp : Component) (s : CStr) (hs : comp.delay_string = some s) :
    (∀ sg ds, is_numeral sg ds = true → s = sg ++ ds →
        LONG_MIN ≤ numeral_value sg ds → numeral_value sg ds ≤ LONG_MAX →
        (rsh_component_open comp).comp.delay_tv_sec = numeral_value sg ds ∧
          (rsh_component_open comp).comp.delay_tv_nsec = comp.delay_tv_nsec) ∧
      (∀ sg ds sg2 ds2, is_numeral sg ds = true → is_numeral sg2 ds2 = true →
        s = sg ++ ds ++ ':' :: (sg2 ++ ds2) →
        LONG_MIN ≤ numeral_value sg ds → numeral_value sg ds ≤ LONG_MAX →
        LONG_MIN ≤ 1000 * numeral_value sg2 ds2 → 1000 * numeral_value sg2 ds2 ≤ LONG_MAX →
        (rsh_component_open comp).comp.delay_tv_sec = numeral_value sg ds ∧
          (rsh_component_open comp).comp.delay_tv_nsec = 1000 * numeral_value sg2 ds2) ∧
      ((∀ ws sg ds rest, ws.all isspace = true → is_numeral sg ds = true →
          s ≠ ws ++ sg ++ ds ++ rest) →
        (rsh_component_open comp).comp.delay_tv_sec = 0) ∧
      (':' ∉ s → (rsh_component_open comp).comp.delay_tv_nsec = comp.delay_tv_nsec) := by
  obtain ⟨hsec, hnsec⟩ := open_delay_fields comp s hs
  rw [hsec, hnsec]
  refine ⟨?_, ?_, ?_, ?_⟩
  · intro sg ds hn he h1 h2
    have hr : ∀ x, ([] : CStr).head? = some x → is_digit x = false := by
      intro x hx
      simp at hx
    have := open_delay_of_numeral comp sg ds [] hn hr h1 h2
    rw [List.append_nil] at this
    rw [he]
    refine ⟨this.1, ?_⟩
    rw [this.2, if_neg (by simp)]
  · intro sg ds sg2 ds2 hn hn2 he h1 h2 h3 h4
    have hr : ∀ x, (':' :: (sg2 ++ ds2)).head? = some x → is_digit x = false := by
      intro x hx
      simp only [List.head?_cons, Option.some.injEq] at hx
      rw [← hx]
      decide
    have := open_delay_of_numeral comp sg ds (':' :: (sg2 ++ ds2)) hn hr h1 h2
    rw [he]
    refine ⟨this.1, ?_⟩
    have hr2 : ∀ x, ([] : CStr).head? = some x → is_digit x = false := by
      intro x hx
      simp at hx
    have hst := strtol_numeral sg2 ds2 [] hn2 hr2
    rw [List.append_nil] at hst
    have g1 : LONG_MIN ≤ numeral_value sg2 ds2 := by
      unfold LONG_MIN at h3 ⊢
      unfold LONG_MAX at h4
      omega
    have g2 : numeral_value sg2 ds2 ≤ LONG_MAX := by
      unfold LONG_MIN at h3
      unfold LONG_MAX at h4 ⊢
      omega
    rw [this.2]
    simp only [List.head?_cons, if_true, List.tail_cons, hst]
    rw [clamp_long_of_range _ g1 g2, wrap_long_of_range _ h3 h4]
  · intro h
    rw [open_delay_sec, if_pos (strtol_endptr_zero s h)]
  · intro h
    rw [open_delay_nsec, if_neg]
    intro hh
    apply h
    have hm : ':' ∈ s.drop (strtol s).endptr := by
      cases hd : s.drop (strtol s).endptr with
      | nil => rw [hd] at hh; simp at hh
      | cons a as =>
        rw [hd] at hh
        simp only [List.head?_cons, Option.some.injEq] at hh
        rw [hh]
        exact List.mem_cons_self _ _
    exact List.mem_of_mem_drop hm

/-- The delay string `2:500000` gives 2 seconds and 500000000 nanoseconds. -/
theorem open_delay_parse_witness :
    (numeral_value [] "2".toList = 2 ∧ numeral_value [] "500000".toList = 500000) ∧
      ((rsh_component_open (delay_component "2:500000".toList)).comp.delay_tv_sec =
          numeral_value [] "2".toList ∧
        (rsh_component_open (delay_component "2:500000".toList)).comp.delay_tv_nsec =
          1000 * numeral_value [] "500000".toList) :=
  ⟨by decide,
    (open_delay_parse (delay_component "2:500000".toList) "2:500000".toList rfl).2.1
      [] "2".toList [] "500000".toList (by decide) (by decide) (by decide) (by decide)
      (by decide) (by decide) (by decide)⟩

/-- Claim C18 as stated fails outside the range of `long`: the delay string
`9223372036854775808` (2 to the power 63) is stored as `tv_sec =
9223372036854775807`, and for `0:9223372036854775807` the product
`1000 * U` overflows and `tv_nsec` is not `1000 * U`. -/
theorem open_delay_out_of_range :
    (is_numeral [] "9223372036854775808".toList = true ∧
        numeral_value [] "9223372036854775808".toList = 9223372036854775808 ∧
        (rsh_component_open (delay_component "9223372036854775808".toList)).comp.delay_tv_sec =
          9223372036854775807 ∧
        (rsh_component_open (delay_component "9223372036854775808".toList)).comp.delay_tv_sec ≠
          numeral_value [] "9223372036854775808".toList) ∧
      (is_numeral [] "9223372036854775807".toList = true ∧
        numeral_value [] "9223372036854775807".toList = 9223372036854775807 ∧
        (rsh_component_open (delay_component "0:9223372036854775807".toList)).comp.delay_tv_nsec =
          -1000 ∧
        (rsh_component_open (delay_component "0:9223372036854775807".toList)).comp.delay_tv_nsec ≠
          1000 * numeral_value [] "9223372036854775807".toList) := by
  decide

/-! ## Frame of the flag adjustment, and the state without an agent -/

theorem xterm_argument_append (xterm : Option CStr) (v : Int) (argv : List CStr) :
    ∃ extra, (extra = [] ∨ extra = ["-X".toList] ∨ extra = ["-x".toList]) ∧
      xterm_argument xterm v argv = argv ++ extra := by
  unfold xterm_argument
  cases argv with
  | nil => exact ⟨[], Or.inl rfl, rfl⟩
  | cons b ts =>
    simp only [prrte_argv_append_unique_nosize, prrte_argv_append_nosize]
    split_ifs
    · exact ⟨[], Or.inl rfl, (List.append_nil _).symm⟩
    · exact ⟨_, Or.inr (Or.inl rfl), rfl⟩
    · exact ⟨_, Or.inr (Or.inr rfl), rfl⟩
    · exact ⟨[], Or.inl rfl, (List.append_nil _).symm⟩
    · exact ⟨[], Or.inl rfl, (List.append_nil _).symm⟩
    · exact ⟨[], Or.inl rfl, (List.append_nil _).symm⟩

/-- Claim C25: for every resolved agent, whatever `prrte_xterm` and the
verbosity are, the lookup stores the resolved path in `agent_path`, and the
argument vector it stores is the basename followed by the candidate's
remaining tokens, followed by nothing or by the single element `-X` or
`-x`. -/
theorem lookup_adjust_frame (w : World) (comp : Component) (agent_list path : Option CStr)
    (p : CStr) (ts : List CStr) (bname : CStr)
    (hs : (prrte_plm_rsh_search w comp.agent agent_list path).argv = some (p :: ts))
    (hb : prrte_basename p = some bname) :
    (rsh_launch_agent_lookup w comp agent_list path).comp.agent_path = some p ∧
      ∃ extra, (extra = [] ∨ extra = ["-X".toList] ∨ extra = ["-x".toList]) ∧
        (rsh_launch_agent_lookup w comp agent_list path).comp.agent_argv =
          some ((bname :: ts) ++ extra) := by
  rw [lookup_of_found w comp agent_list path p ts bname hs hb]
  obtain ⟨extra, he, hx⟩ := xterm_argument_append w.prrte_xterm w.verbosity (bname :: ts)
  exact ⟨rfl, extra, he, by rw [hx]⟩

/-- With `prrte_xterm` not set and verbosity 0, the agent `ssh -q` keeps its path
and its two arguments and gets one more. -/
theorem lookup_adjust_frame_witness :
    (rsh_launch_agent_lookup (ssh_rsh_world none 0 VarSource.DEFAULT)
        (example_component (some "ssh -q : rsh".toList)) none none).comp.agent_path =
        some "/usr/bin/ssh".toList ∧
      ∃ extra, (extra = [] ∨ extra = ["-X".toList] ∨ extra = ["-x".toList]) ∧
        (rsh_launch_agent_lookup (ssh_rsh_world none 0 VarSource.DEFAULT)
          (example_component (some "ssh -q : rsh".toList)) none none).comp.agent_argv =
          some (("ssh".toList :: ["-q".toList]) ++ extra) :=
  lookup_adjust_frame (ssh_rsh_world none 0 VarSource.DEFAULT)
    (example_component (some "ssh -q : rsh".toList)) none none "/usr/bin/ssh".toList
    ["-q".toList] "ssh".toList (by decide) (by decide)

theorem lookup_no_agent (w : World) (comp : Component) (path : Option CStr)
    (ha : comp.agent = none) :
    rsh_launch_agent_lookup w comp none path = ⟨Status.PRRTE_ERR_NOT_FOUND, comp, []⟩ := by
  unfold rsh_launch_agent_lookup
  rw [ha]
  rfl

theorem query_lookup_no_agent (w : World) (comp : Component) (ha : comp.agent = none) :
    query_lookup w comp =
      ⟨Status.PRRTE_ERROR, some ModulePtr.NULL, none, comp, none, [⟨none, none⟩], []⟩ := by
  unfold query_lookup
  rw [lookup_no_agent w comp none ha]
  simp only [ha]
  rfl

/-- Claim C26: when no agent list is passed and the component's `agent` is
`NULL`, `prrte_plm_rsh_search` returns `NULL` and `rsh_launch_agent_lookup`
returns `PRRTE_ERR_NOT_FOUND`, both without a probe and without touching the
component; a `rsh_component_query` that reaches the lookup (the agent variable
is not at its default, or neither environment rule matches) then returns
`PRRTE_ERROR` with `*module = NULL` and does not force termination. -/
theorem query_no_agent (w : World) (comp : Component) (path : Option CStr)
    (ha : comp.agent = none) :
    prrte_plm_rsh_search w comp.agent none path = ⟨none, []⟩ ∧
      rsh_launch_agent_lookup w comp none path = ⟨Status.PRRTE_ERR_NOT_FOUND, comp, []⟩ ∧
      (w.agent_var_get_value.1 = Status.PRRTE_SUCCESS →
        (w.agent_var_get_value.2 ≠ VarSource.DEFAULT ∨
          (grid_engine_rule w comp = false ∧ resource_manager_rule w comp = false)) →
        rsh_component_query w comp =
          ⟨Status.PRRTE_ERROR, some ModulePtr.NULL, none, comp, none, [⟨none, none⟩], []⟩) := by
  refine ⟨by rw [ha]; rfl, lookup_no_agent w comp path ha, ?_⟩
  intro hret hcase
  by_cases hsrc : w.agent_var_get_value.2 = VarSource.DEFAULT
  · rcases hcase with h | ⟨hg, hr⟩
    · exact absurd hsrc h
    · rw [query_of_not_grid_engine w comp hret hsrc hg, if_neg (by simp [hr])]
      exact query_lookup_no_agent w comp ha
  · have e : rsh_component_query w comp = query_lookup w comp := by
      unfold rsh_component_query
      rw [if_neg (by simp [hret]), if_pos hsrc]
    rw [e]
    exact query_lookup_no_agent w comp ha

/-- With no agent configured and nothing in the environment the query reports
the module unavailable and probes nothing. -/
theorem query_no_agent_witness :
    prrte_plm_rsh_search (bare_world VarSource.DEFAULT) (example_component none).agent none none =
        ⟨none, []⟩ ∧
      rsh_launch_agent_lookup (bare_world VarSource.DEFAULT) (example_component none) none none =
        ⟨Status.PRRTE_ERR_NOT_FOUND, example_component none, []⟩ ∧
      rsh_component_query (bare_world VarSource.DEFAULT) (example_component none) =
        ⟨Status.PRRTE_ERROR, some ModulePtr.NULL, none, example_component none, none,
          [⟨none, none⟩], []⟩ :=
  ⟨(query_no_agent (bare_world VarSource.DEFAULT) (example_component none) none rfl).1,
    (query_no_agent (bare_world VarSource.DEFAULT) (example_component none) none rfl).2.1,
    (query_no_agent (bare_world VarSource.DEFAULT) (example_component none) none rfl).2.2
      (by decide) (Or.inr (by decide))⟩

/-! ## The mechanism flags -/

theorem open_using_flags (comp : Component) :
    (rsh_component_open comp).comp.using_qrsh = false ∧
      (rsh_component_open comp).comp.using_llspawn = false := by
  unfold rsh_component_open
  simp only
  split
  · split <;> exact ⟨rfl, rfl⟩
  · rename_i s hs
    unfold open_delay
    simp only
    split <;> split <;> exact ⟨rfl, rfl⟩

theorem lookup_single_argv (w : World) (comp : Component) (path : Option CStr) (name : CStr)
    (h1 : prrte_argv_split name ':' = [name]) (h2 : trim_line name = name)
    (h3 : prrte_argv_split name (Char.ofNat 32) = [name]) (h4 : name ≠ [])
    (h5 : name ≠ "ssh".toList)
    (hw : ∀ cwd p, w.prrte_path_findv name cwd = some p → prrte_basename p = some name)
    (hret : (rsh_launch_agent_lookup w comp (some name) path).ret = Status.PRRTE_SUCCESS) :
    (rsh_launch_agent_lookup w comp (some name) path).comp.agent_argv = some [name] := by
  cases hf : w.prrte_path_findv name (search_cwd w path) with
  | none =>
    have := (lookup_single_not_found w comp path name h1 h2 h3 h4 hf).1
    rw [this] at hret
    exact absurd hret (by decide)
  | some p =>
    have hs := search_single_name w comp.agent path name h1 h2 h3 h4
    rw [hf] at hs
    have hl := lookup_of_found w comp (some name) path p [] name (by rw [hs])
      (hw _ p hf)
    rw [hl, xterm_argument_not_ssh w.prrte_xterm w.verbosity name [] h5]

/-- The three ways `rsh_component_query` can leave the mechanism flags: both
untouched; `using_qrsh` set after `qrsh` was resolved; `using_llspawn` set
after `llspawn` was resolved. -/
theorem query_flags_cases (w : World) (comp : Component)
    (hq : ∀ cwd p, w.prrte_path_findv "qrsh".toList cwd = some p →
      prrte_basename p = some "qrsh".toList)
    (hl : ∀ cwd p, w.prrte_path_findv "llspawn".toList cwd = some p →
      prrte_basename p = some "llspawn".toList) :
    ((rsh_component_query w comp).comp.using_qrsh = comp.using_qrsh ∧
        (rsh_component_query w comp).comp.using_llspawn = comp.using_llspawn) ∨
      ((rsh_component_query w comp).ret = Status.PRRTE_SUCCESS ∧
        (rsh_component_query w comp).comp.using_qrsh = true ∧
        (rsh_component_query w comp).comp.using_llspawn = comp.using_llspawn ∧
        (rsh_component_query w comp).comp.agent_argv = some ["qrsh".toList]) ∨
      ((rsh_component_query w comp).ret = Status.PRRTE_SUCCESS ∧
        (rsh_component_query w comp).comp.using_llspawn = true ∧
        (rsh_component_query w comp).comp.using_qrsh = comp.using_qrsh ∧
        (rsh_component_query w comp).comp.agent_argv = some ["llspawn".toList]) := by
  by_cases hret : w.agent_var_get_value.1 = Status.PRRTE_SUCCESS
  · by_cases hsrc : w.agent_var_get_value.2 = VarSource.DEFAULT
    · by_cases hg : grid_engine_rule w comp = true
      · rw [query_of_grid_engine w comp hret hsrc hg]
        obtain ⟨f1, f2, _⟩ := lookup_frame w comp (some "qrsh".toList) (some (qrsh_path w))
        split
        · exact Or.inl ⟨f1, f2⟩
        · rename_i hs
          have hs1 := not_not.1 hs
          have ha := lookup_single_argv w comp (some (qrsh_path w)) "qrsh".toList
            (by decide) (by decide) (by decide) (by decide) (by decide) hq hs1
          exact Or.inr (Or.inl ⟨rfl, rfl, f2, ha⟩)
      · have hg2 : grid_engine_rule w comp = false := by simpa using hg
        rw [query_of_not_grid_engine w comp hret hsrc hg2]
        by_cases hr : resource_manager_rule w comp = true
        · rw [if_pos hr]
          obtain ⟨f1, f2, _⟩ := lookup_frame w comp (some "llspawn".toList) none
          split
          · exact Or.inl ⟨f1, f2⟩
          · rename_i hs
            have hs1 := not_not.1 hs
            have ha := lookup_single_argv w comp none "llspawn".toList
              (by decide) (by decide) (by decide) (by decide) (by decide) hl hs1
            exact Or.inr (Or.inr ⟨rfl, rfl, f1, ha⟩)
        · rw [if_neg hr, (query_lookup_frame w comp).2.2]
          obtain ⟨f1, f2, _⟩ := lookup_frame w comp none none
          exact Or.inl ⟨f1, f2⟩
    · have e : rsh_component_query w comp = query_lookup w comp := by
        unfold rsh_component_query
        rw [if_neg (by simp [hret]), if_pos hsrc]
      rw [e, (query_lookup_frame w comp).2.2]
      obtain ⟨f1, f2, _⟩ := lookup_frame w comp none none
      exact Or.inl ⟨f1, f2⟩
  · have e : rsh_component_query w comp =
        ⟨w.agent_var_get_value.1, none, none, comp, none, [], []⟩ := by
      unfold rsh_component_query
      rw [if_pos hret]
    rw [e]
    exact Or.inl ⟨rfl, rfl⟩

/-- Claim C27: after `rsh_component_open` followed by `rsh_component_query`,
`using_qrsh` and `using_llspawn` are never both true; `using_qrsh` is true
only if the query returned `PRRTE_SUCCESS` with `agent_argv` the single
element `qrsh`, `using_llspawn` only if it returned `PRRTE_SUCCESS` with
`agent_argv` the single element `llspawn`; after a query that does not return
`PRRTE_SUCCESS` both are false.  The path search is taken to return, for
`qrsh` and for `llspawn`, a path whose basename is the name searched. -/
theorem query_using_flags (w : World) (comp : Component)
    (hq : ∀ cwd p, w.prrte_path_findv "qrsh".toList cwd = some p →
      prrte_basename p = some "qrsh".toList)
    (hl : ∀ cwd p, w.prrte_path_findv "llspawn".toList cwd = some p →
      prrte_basename p = some "llspawn".toList) :
    ¬ ((rsh_component_query w (rsh_component_open comp).comp).comp.using_qrsh = true ∧
        (rsh_component_query w (rsh_component_open comp).comp).comp.using_llspawn = true) ∧
      ((rsh_component_query w (rsh_component_open comp).comp).comp.using_qrsh = true →
        (rsh_component_query w (rsh_component_open comp).comp).ret = Status.PRRTE_SUCCESS ∧
        (rsh_component_query w (rsh_component_open comp).comp).comp.agent_argv =
          some ["qrsh".toList]) ∧
      ((rsh_component_query w (rsh_component_open comp).comp).comp.using_llspawn = true →
        (rsh_component_query w (rsh_component_open comp).comp).ret = Status.PRRTE_SUCCESS ∧
        (rsh_component_query w (rsh_component_open comp).comp).comp.agent_argv =
          some ["llspawn".toList]) ∧
      ((rsh_component_query w (rsh_component_open comp).comp).ret ≠ Status.PRRTE_SUCCESS →
        (rsh_component_query w (rsh_component_open comp).comp).comp.using_qrsh = false ∧
        (rsh_component_query w (rsh_component_open comp).comp).comp.using_llspawn = false) := by
  obtain ⟨o1, o2⟩ := open_using_flags comp
  rcases query_flags_cases w (rsh_component_open comp).comp hq hl with
    ⟨a1, a2⟩ | ⟨b1, b2, b3, b4⟩ | ⟨c1, c2, c3, c4⟩
  · rw [o1] at a1
    rw [o2] at a2
    refine ⟨?_, ?_, ?_, ?_⟩
    · rw [a1]; simp
    · rw [a1]; simp
    · rw [a2]; simp
    · intro _; exact ⟨a1, a2⟩
  · rw [o2] at b3
    refine ⟨?_, ?_, ?_, ?_⟩
    · rw [b3]; simp
    · intro _; exact ⟨b1, b4⟩
    · rw [b3]; simp
    · intro h; exact absurd b1 h
  · rw [o1] at c3
    refine ⟨?_, ?_, ?_, ?_⟩
    · rw [c3]; simp
    · rw [c3]; simp
    · intro _; exact ⟨c1, c4⟩
    · intro h; exact absurd c1 h

/-- Inside a Grid Engine job with `qrsh` installed, after open and query
`using_qrsh` is true, `using_llspawn` is false and `agent_argv` is `qrsh`. -/
theorem query_using_flags_witness :
    ((rsh_component_query grid_engine_default_world
          (rsh_component_open (example_component (some "ssh : rsh".toList))).comp).comp.using_qrsh =
        true ∧
      (rsh_component_query grid_engine_default_world
          (rsh_component_open (example_component (some "ssh : rsh".toList))).comp).comp.using_llspawn =
        false) ∧
      (rsh_component_query grid_engine_default_world
          (rsh_component_open (example_component (some "ssh : rsh".toList))).comp).ret =
        Status.PRRTE_SUCCESS ∧
      (rsh_component_query grid_engine_default_world
          (rsh_component_open (example_component (some "ssh : rsh".toList))).comp).comp.agent_argv =
        some ["qrsh".toList] :=
  ⟨by decide,
    (query_using_flags grid_engine_default_world (example_component (some "ssh : rsh".toList))
      (by
        intro cwd p h
        have e : grid_engine_default_world.prrte_path_findv "qrsh".toList cwd =
            some "/sge/bin/lx/qrsh".toList := rfl
        rw [e] at h
        cases h
        decide)
      (by
        intro cwd p h
        have e : grid_engine_default_world.prrte_path_findv "llspawn".toList cwd =
            some "/usr/bin/llspawn".toList := rfl
        rw [e] at h
        cases h
        decide)).2.1 (by decide)⟩

/-! ## Range of the stored delay -/

/-- Claim C28 as stated fails: nothing checks the sign or the size of what the
delay string holds.  `-5` is stored as `tv_sec = -5`, `0:1000000` as
`tv_nsec = 1000000000` and `0:-1` as `tv_nsec = -1000`. -/
theorem open_delay_not_validated :
    (rsh_component_open (delay_component "-5".toList)).comp.delay_tv_sec = -5 ∧
      ¬ (0 ≤ (rsh_component_open (delay_component "-5".toList)).comp.delay_tv_sec) ∧
      (rsh_component_open (delay_component "0:1000000".toList)).comp.delay_tv_nsec =
        1000000000 ∧
      ¬ ((rsh_component_open (delay_component "0:1000000".toList)).comp.delay_tv_nsec <
        1000000000) ∧
      (rsh_component_open (delay_component "0:-1".toList)).comp.delay_tv_nsec = -1000 ∧
      ¬ (0 ≤ (rsh_component_open (delay_component "0:-1".toList)).comp.delay_tv_nsec) := by
  decide

/-- Claim C28, as amended: when `tv_nsec` was in the range `0` to `999999999`
before, `rsh_component_open` stores a well-formed non-negative duration for
every delay string that writes a decimal integer `S` with `0 ≤ S ≤ LONG_MAX`,
alone or followed by a colon and a decimal integer `U` with
`0 ≤ U < 1000000`. -/
theorem open_delay_well_formed (comp : Component) (s : CStr)
    (hs : comp.delay_string = some s)
    (hprev : 0 ≤ comp.delay_tv_nsec ∧ comp.delay_tv_nsec < 1000000000) :
    (∀ sg ds, is_numeral sg ds = true → s = sg ++ ds →
        0 ≤ numeral_value sg ds → numeral_value sg ds ≤ LONG_MAX →
        0 ≤ (rsh_component_open comp).comp.delay_tv_sec ∧
          0 ≤ (rsh_component_open comp).comp.delay_tv_nsec ∧
          (rsh_component_open comp).comp.delay_tv_nsec < 1000000000) ∧
      (∀ sg ds sg2 ds2, is_numeral sg ds = true → is_numeral sg2 ds2 = true →
        s = sg ++ ds ++ ':' :: (sg2 ++ ds2) →
        0 ≤ numeral_value sg ds → numeral_value sg ds ≤ LONG_MAX →
        0 ≤ numeral_value sg2 ds2 → numeral_value sg2 ds2 < 1000000 →
        0 ≤ (rsh_component_open comp).comp.delay_tv_sec ∧
          0 ≤ (rsh_component_open comp).comp.delay_tv_nsec ∧
          (rsh_component_open comp).comp.delay_tv_nsec < 1000000000) := by
  obtain ⟨hsec, hnsec⟩ := open_delay_fields comp s hs
  rw [hsec, hnsec]
  have hr0 : ∀ x, ([] : CStr).head? = some x → is_digit x = false := by
    intro x hx
    simp at hx
  constructor
  · intro sg ds hn he h1 h2
    have hmin : LONG_MIN ≤ numeral_value sg ds := by
      unfold LONG_MIN
      omega
    have := open_delay_of_numeral comp sg ds [] hn hr0 hmin h2
    rw [List.append_nil] at this
    rw [he, this.1, this.2, if_neg (by simp)]
    exact ⟨h1, hprev.1, hprev.2⟩
  · intro sg ds sg2 ds2 hn hn2 he h1 h2 h3 h4
    have hmin : LONG_MIN ≤ numeral_value sg ds := by
      unfold LONG_MIN
      omega
    have hr : ∀ x, (':' :: (sg2 ++ ds2)).head? = some x → is_digit x = false := by
      intro x hx
      simp only [List.head?_cons, Option.some.injEq] at hx
      rw [← hx]
      decide
    have := open_delay_of_numeral comp sg ds (':' :: (sg2 ++ ds2)) hn hr hmin h2
    have hst := strtol_numeral sg2 ds2 [] hn2 hr0
    rw [List.append_nil] at hst
    have g1 : LONG_MIN ≤ numeral_value sg2 ds2 := by
      unfold LONG_MIN
      omega
    have g2 : numeral_value sg2 ds2 ≤ LONG_MAX := by
      unfold LONG_MAX
      omega
    have g3 : LONG_MIN ≤ 1000 * numeral_value sg2 ds2 := by
      unfold LONG_MIN
      omega
    have g4 : 1000 * numeral_value sg2 ds2 ≤ LONG_MAX := by
      unfold LONG_MAX
      omega
    rw [he, this.1, this.2]
    simp only [List.head?_cons, if_true, List.tail_cons, hst]
    rw [clamp_long_of_range _ g1 g2, wrap_long_of_range _ g3 g4]
    exact ⟨h1, by omega, by omega⟩

/-- The delay string `2:500000` is stored as a well-formed duration. -/
theorem open_delay_well_formed_witness :
    0 ≤ (rsh_component_open (delay_component "2:500000".toList)).comp.delay_tv_sec ∧
      0 ≤ (rsh_component_open (delay_component "2:500000".toList)).comp.delay_tv_nsec ∧
      (rsh_component_open (delay_component "2:500000".toList)).comp.delay_tv_nsec <
        1000000000 :=
  (open_delay_well_formed (delay_component "2:500000".toList) "2:500000".toList rfl
    (by decide)).2 [] "2".toList [] "500000".toList (by decide) (by decide) (by decide)
    (by decide) (by decide) (by decide) (by decide)

/-! ## The first token of a candidate -/

theorem fields_no_delimiter (d : Char) (s : CStr) : ∀ t ∈ fields d s, d ∉ t := by
  induction s with
  | nil =>
    intro t ht
    simp only [fields, List.mem_singleton] at ht
    rw [ht]
    exact List.not_mem_nil d
  | cons c cs ih =>
    intro t ht
    simp only [fields] at ht
    split at ht
    · rcases List.mem_cons.1 ht with h | h
      · rw [h]
        exact List.not_mem_nil d
      · exact ih t h
    · rename_i hc
      have hcd : d ≠ c := by
        intro h
        apply hc
        rw [h]
        exact beq_self_eq_true c
      split at ht
      · simp only [List.mem_singleton] at ht
        rw [ht]
        simpa using hcd
      · rename_i f fs hf
        rcases List.mem_cons.1 ht with h | h
        · rw [h]
          have := ih f (by rw [hf]; exact List.mem_cons_self _ _)
          simp only [List.mem_cons, not_or]
          exact ⟨hcd, this⟩
        · exact ih t (by rw [hf]; exact List.mem_cons_of_mem _ h)

theorem argv_split_token (s : CStr) (d : Char) : ∀ t ∈ prrte_argv_split s d, t ≠ [] ∧ d ∉ t := by
  intro t ht
  unfold prrte_argv_split at ht
  rw [List.mem_filter] at ht
  refine ⟨?_, fields_no_delimiter d s t ht.1⟩
  intro h
  rw [h] at ht
  simp at ht

theorem search_lines_probes_token (w : World) (cwd : CStr) (lines : List CStr) :
    ∀ pr ∈ (search_lines w cwd lines).probes, pr.fname ≠ [] ∧ Char.ofNat 32 ∉ pr.fname := by
  induction lines with
  | nil =>
    intro pr hpr
    simp [search_lines] at hpr
  | cons l rest ih =>
    intro pr hpr
    by_cases h1 : (trim_line l).length ≤ 0
    · have e : search_lines w cwd (l :: rest) = search_lines w cwd rest := by
        simp only [search_lines, if_pos h1]
      rw [e] at hpr
      exact ih pr hpr
    · cases h2 : prrte_argv_split (trim_line l) (Char.ofNat 32) with
      | nil =>
        have e : search_lines w cwd (l :: rest) = search_lines w cwd rest := by
          simp only [search_lines, if_neg h1, h2]
        rw [e] at hpr
        exact ih pr hpr
      | cons t0 us =>
        have ht0 := argv_split_token (trim_line l) (Char.ofNat 32) t0
          (by rw [h2]; exact List.mem_cons_self _ _)
        cases h3 : w.prrte_path_findv t0 cwd with
        | some tmp =>
          have e : search_lines w cwd (l :: rest) = ⟨some (tmp :: us), [⟨t0, cwd⟩]⟩ := by
            simp only [search_lines, if_neg h1, h2, h3]
          rw [e] at hpr
          simp only [List.mem_singleton] at hpr
          rw [hpr]
          exact ht0
        | none =>
          have e : search_lines w cwd (l :: rest) =
              ⟨(search_lines w cwd rest).argv,
                ⟨t0, cwd⟩ :: (search_lines w cwd rest).probes⟩ := by
            simp only [search_lines, if_neg h1, h2, h3]
          rw [e] at hpr
          rcases List.mem_cons.1 hpr with h | h
          · rw [h]
            exact ht0
          · exact ih pr h

/-- Claim C29: a candidate that passes the test `strlen(line) <= 0` after the
two trimming loops starts with a character that is not whitespace, and its
split on spaces has a first token, which is not empty and has no space in it;
and every name `prrte_plm_rsh_search` hands to the path search, for any
candidate list, is such a token. -/
theorem search_first_token (w : World) (agent agent_list path : Option CStr) (l : CStr)
    (h : trim_line l ≠ []) :
    (∃ c cs, trim_line l = c :: cs ∧ isspace c = false) ∧
      (∃ t0 ts, prrte_argv_split (trim_line l) (Char.ofNat 32) = t0 :: ts ∧ t0 ≠ [] ∧
        Char.ofNat 32 ∉ t0) ∧
      ∀ pr ∈ (prrte_plm_rsh_search w agent agent_list path).probes,
        pr.fname ≠ [] ∧ Char.ofNat 32 ∉ pr.fname := by
  refine ⟨trim_line_head l h, ?_, ?_⟩
  · obtain ⟨t0, ts, hsplit, hne⟩ := argv_split_trim_line l h
    refine ⟨t0, ts, hsplit, hne, ?_⟩
    exact (argv_split_token (trim_line l) (Char.ofNat 32) t0
      (by rw [hsplit]; exact List.mem_cons_self _ _)).2
  · unfold prrte_plm_rsh_search
    split
    · intro pr hpr
      simp at hpr
    · exact search_lines_probes_token w _ _
    · exact search_lines_probes_token w _ _

/-- The candidate ` rsh -l user` keeps the first token `rsh`. -/
theorem search_first_token_witness :
    trim_line " rsh -l user".toList ≠ [] ∧
      ((∃ c cs, trim_line " rsh -l user".toList = c :: cs ∧ isspace c = false) ∧
        (∃ t0 ts, prrte_argv_split (trim_line " rsh -l user".toList) (Char.ofNat 32) = t0 :: ts ∧
          t0 ≠ [] ∧ Char.ofNat 32 ∉ t0) ∧
        ∀ pr ∈ (prrte_plm_rsh_search rsh_world none (some "ssh : rsh -l user".toList)
            none).probes,
          pr.fname ≠ [] ∧ Char.ofNat 32 ∉ pr.fname) :=
  ⟨by decide,
    search_first_token rsh_world none (some "ssh : rsh -l user".toList) none
      " rsh -l user".toList (by decide)⟩

end PlmRsh

namespace CartCoords

/-- Claim C24, the code at `rank = size`: on a valid cartesian
intra-communicator of 4 processes, with parameter checking on, rank 4 is not
in `0..3`, yet the rank test `rank > size` lets it through and the topology
module's function is called; ranks 5 and -1 are rejected with `MPI_ERR_RANK`
and no call. -/
theorem cart_coords_rank_equal_size :
    MPI_Cart_coords true false (example_cart 4) 4 0 none =
        ⟨Returned.MPI_SUCCESS, none, [(4, 0)]⟩ ∧
      MPI_Cart_coords true false (example_cart 4) 5 0 none =
        ⟨Returned.errhandler_invoke ErrhandlerComm.comm MpiCode.MPI_ERR_RANK, none, []⟩ ∧
      MPI_Cart_coords true false (example_cart 4) (-1) 0 none =
        ⟨Returned.errhandler_invoke ErrhandlerComm.comm MpiCode.MPI_ERR_RANK, none, []⟩ := by
  decide

theorem call_topo_calls (comm : Communicator) (rank maxdims : Int) (coords : Option (List Int)) :
    (call_topo comm rank maxdims coords).func_calls = [(rank, maxdims)] := by
  unfold call_topo
  simp only
  split <;> rfl

/-- Claim C30: with parameter checking on and a valid cartesian
intra-communicator, the argument check of `MPI_Cart_coords` ends the call with
`MPI_ERR_ARG`, before any call of the topology module, exactly when
`maxdims < 0`, or `maxdims > 0` and `coords` is `NULL`; this holds whatever the
rank is, so a bad `maxdims` with a bad rank gives `MPI_ERR_ARG`; and with
`maxdims = 0` and `coords = NULL` the call goes on to the rank check. -/
theorem cart_coords_arg_check (comm : Communicator) (rank maxdims : Int)
    (coords : Option (List Int))
    (hv : comm.invalid = false) (hi : comm.is_inter = false) (hc : comm.is_cart = true) :
    (((MPI_Cart_coords true false comm rank maxdims coords).ret =
          Returned.errhandler_invoke ErrhandlerComm.comm MpiCode.MPI_ERR_ARG ∧
        (MPI_Cart_coords true false comm rank maxdims coords).func_calls = []) ↔
        (maxdims < 0 ∨ (0 < maxdims ∧ coords = none))) ∧
      (maxdims = 0 → coords = none →
        MPI_Cart_coords true false comm rank maxdims coords =
          if 0 > rank ∨ rank > comm.local_group_size then
            ⟨Returned.errhandler_invoke ErrhandlerComm.comm MpiCode.MPI_ERR_RANK, coords, []⟩
          else call_topo comm rank maxdims coords) := by
  have hunf : MPI_Cart_coords true false comm rank maxdims coords =
      if 0 > maxdims ∨ (0 < maxdims ∧ coords = none) then
        ⟨Returned.errhandler_invoke ErrhandlerComm.comm MpiCode.MPI_ERR_ARG, coords, []⟩
      else if 0 > rank ∨ rank > comm.local_group_size then
        ⟨Returned.errhandler_invoke ErrhandlerComm.comm MpiCode.MPI_ERR_RANK, coords, []⟩
      else call_topo comm rank maxdims coords := by
    simp [MPI_Cart_coords, hv, hi, hc]
  constructor
  · rw [hunf]
    constructor
    · intro h
      by_contra hcon
      have hcon2 : ¬ (0 > maxdims ∨ (0 < maxdims ∧ coords = none)) := hcon
      rw [if_neg hcon2] at h
      split at h
      · exact absurd h.1 (by simp)
      · rw [call_topo_calls] at h
        exact absurd h.2 (by simp)
    · intro h
      have h2 : 0 > maxdims ∨ (0 < maxdims ∧ coords = none) := h
      rw [if_pos h2]
      exact ⟨rfl, rfl⟩
  · intro hm _
    rw [hunf, if_neg]
    rw [hm]
    simp

/-- On a valid cartesian intra-communicator of 4 processes, `maxdims = -1` with
the bad rank 9 gives `MPI_ERR_ARG`. -/
theorem cart_coords_arg_check_witness :
    (MPI_Cart_coords true false (example_cart 4) 9 (-1) none).ret =
        Returned.errhandler_invoke ErrhandlerComm.comm MpiCode.MPI_ERR_ARG ∧
      (MPI_Cart_coords true false (example_cart 4) 9 (-1) none).func_calls = [] :=
  ((cart_coords_arg_check (example_cart 4) 9 (-1) none rfl rfl rfl).1).2
    (Or.inl (by decide))

end CartCoords

namespace Dss

theorem type_bits_pos (t : orte_data_type_t) : 0 < type_bits t := by
  cases t <;> decide

theorem load_store (t : orte_data_type_t) (v : Int) (h1 : type_min t ≤ v) (h2 : v ≤ type_max t) :
    load t (store t v) = v := by
  have hb := type_bits_pos t
  obtain ⟨k, hk⟩ : ∃ k, type_bits t = k + 1 := ⟨type_bits t - 1, by omega⟩
  have hpow : (2 : Int) ^ (k + 1) = 2 * (2 : Int) ^ k := by ring
  have hpos : (0 : Int) < (2 : Int) ^ k := by positivity
  have hnat : ((2 ^ k : Nat) : Int) = (2 : Int) ^ k := by push_cast; rfl
  unfold type_min at h1
  unfold type_max at h2
  unfold load store
  rw [hk] at h1 h2 ⊢
  simp only [Nat.add_sub_cancel] at h1 h2 ⊢
  rw [hpow] at h2 ⊢
  cases hs : type_signed t with
  | false =>
    rw [hs] at h1 h2
    simp only [Bool.false_eq_true, if_false] at h1 h2
    simp only [Bool.false_and, Bool.false_eq_true, if_false]
    rw [Int.emod_eq_of_lt h1 (by omega)]
    exact Int.toNat_of_nonneg h1
  | true =>
    rw [hs] at h1 h2
    simp only [if_true] at h1 h2
    simp only [Bool.true_and, decide_eq_true_eq]
    by_cases hv : 0 ≤ v
    · rw [Int.emod_eq_of_lt hv (by omega)]
      have hlt : ¬ (2 ^ k ≤ v.toNat) := by
        intro hc
        have : ((2 ^ k : Nat) : Int) ≤ (v.toNat : Int) := by exact_mod_cast hc
        rw [hnat, Int.toNat_of_nonneg hv] at this
        omega
      rw [if_neg hlt]
      exact Int.toNat_of_nonneg hv
    · have hmod : v % (2 * (2 : Int) ^ k) = v + 2 * (2 : Int) ^ k := by
        rw [← Int.add_mul_emod_self_left v (2 * 2 ^ k) 1, mul_one]
        exact Int.emod_eq_of_lt (by omega) (by omega)
      rw [hmod]
      have hnn : 0 ≤ v + 2 * (2 : Int) ^ k := by omega
      have hge : 2 ^ k ≤ (v + 2 * (2 : Int) ^ k).toNat := by
        have : ((2 ^ k : Nat) : Int) ≤ ((v + 2 * (2 : Int) ^ k).toNat : Int) := by
          rw [hnat, Int.toNat_of_nonneg hnn]
          omega
        exact_mod_cast this
      rw [if_pos hge, Int.toNat_of_nonneg hnn]
      omega

/-- Claim C22: for every integer-like data type and every two numbers `a` and
`b` of that type, the comparison of the objects that hold them is
`ORTE_EQUAL` when `a = b`, `ORTE_VALUE1_GREATER` when `a > b` and
`ORTE_VALUE2_GREATER` when `a < b`, for signed and unsigned types alike. -/
theorem compare_integer_types (t : orte_data_type_t) (a b : Int)
    (ha1 : type_min t ≤ a) (ha2 : a ≤ type_max t)
    (hb1 : type_min t ≤ b) (hb2 : b ≤ type_max t) :
    (a = b → orte_dss_compare (store t a) (store t b) t = CompareResult.ORTE_EQUAL) ∧
      (a > b → orte_dss_compare (store t a) (store t b) t =
        CompareResult.ORTE_VALUE1_GREATER) ∧
      (a < b → orte_dss_compare (store t a) (store t b) t =
        CompareResult.ORTE_VALUE2_GREATER) := by
  unfold orte_dss_compare
  rw [load_store t a ha1 ha2, load_store t b hb1 hb2]
  refine ⟨?_, ?_, ?_⟩
  · intro h
    rw [if_neg (by omega), if_neg (by omega)]
  · intro h
    rw [if_pos h]
  · intro h
    rw [if_neg (by omega), if_pos h]

/-- As unsigned 8-bit numbers 200 is above 100, although the object that holds
200 reads as a negative number when taken as signed. -/
theorem compare_integer_types_witness :
    (type_min orte_data_type_t.ORTE_UINT8 ≤ 200 ∧ (200 : Int) ≤ type_max orte_data_type_t.ORTE_UINT8) ∧
      orte_dss_compare (store orte_data_type_t.ORTE_UINT8 200)
        (store orte_data_type_t.ORTE_UINT8 100) orte_data_type_t.ORTE_UINT8 =
        CompareResult.ORTE_VALUE1_GREATER :=
  ⟨by decide,
    (compare_integer_types orte_data_type_t.ORTE_UINT8 200 100 (by decide) (by decide)
      (by decide) (by decide)).2.1 (by decide)⟩

/-- The four tests the claim rests on pass with the modelled comparison. -/
theorem tests_pass :
    test1 orte_dss_compare = true ∧ test4 orte_dss_compare = true ∧
      test5 orte_dss_compare = true ∧ test8 orte_dss_compare = true := by
  decide

end Dss

namespace CmdLine

open PlmRsh (CStr)

theorem step_stop_reason (options : List prrte_cmd_line_option_t)
    (current : Option Collecting) (tok : CStr) (reason : StopReason) (tl : List CStr)
    (h : (step options current tok).outcome = Outcome.stop reason tl) :
    reason ≠ StopReason.all_processed := by
  unfold step at h
  intro hr
  subst hr
  split at h
  · split_ifs at h
    simp at h
  · split_ifs at h
    · simp at h
    · split at h
      · simp at h
      · split_ifs at h

theorem steps_stop_reason (options : List prrte_cmd_line_option_t) (toks : List CStr) :
    ∀ (current : Option Collecting) (reason : StopReason) (tl : List CStr),
      (steps options current toks).outcome = Outcome.stop reason tl →
      reason ≠ StopReason.all_processed := by
  induction toks with
  | nil =>
    intro current reason tl h
    simp [steps] at h
  | cons tok rest ih =>
    intro current reason tl h
    cases hs : (step options current tok).outcome with
    | stop r t =>
      simp only [steps, hs] at h
      have := step_stop_reason options current tok r t hs
      simp only [Outcome.stop.injEq] at h
      rw [← h.1]
      exact this
    | proceed cur =>
      simp only [steps, hs] at h
      exact ih cur reason tl h

theorem scan_append (options : List prrte_cmd_line_option_t) (pre rest : List CStr) :
    ∀ current, (scan options current pre).stop = StopReason.all_processed →
      scan options current (pre ++ rest) =
        ⟨(scan options current pre).params ++ (scan options none rest).params,
          (scan options none rest).tail, (scan options none rest).stop⟩ := by
  induction pre with
  | nil =>
    intro current h
    cases current with
    | none => simp [scan]
    | some c => simp [scan] at h
  | cons tok toks ih =>
    intro current h
    have e : (tok :: toks) ++ rest = tok :: (toks ++ rest) := rfl
    rw [e]
    cases hs : (steps options current (tokens_of options current tok)).outcome with
    | stop r t =>
      simp only [scan, hs] at h
      exact absurd h (steps_stop_reason options _ current r t hs)
    | proceed cur =>
      simp only [scan, hs] at h ⊢
      rw [ih cur h]
      simp only [List.append_assoc]

theorem is_combined_short (options : List prrte_cmd_line_option_t) (x : Char) :
    is_combined options ['-', x] = false := by
  unfold is_combined
  split
  · rename_i heq
    simp at heq
  · rfl

theorem tokens_of_short (options : List prrte_cmd_line_option_t)
    (current : Option Collecting) (x : Char) :
    tokens_of options current ['-', x] = [['-', x]] := by
  simp only [tokens_of, is_combined_short, Bool.and_false, Bool.false_eq_true, if_false]

theorem steps_singleton (options : List prrte_cmd_line_option_t)
    (current : Option Collecting) (tok : CStr) :
    steps options current [tok] = step options current tok := by
  cases hs : (step options current tok).outcome with
  | stop r t =>
    simp only [steps, hs, List.append_nil]
    rw [← hs]
  | proceed cur =>
    simp only [steps, hs, List.append_nil]
    rw [← hs]

theorem scan_steps (options : List prrte_cmd_line_option_t) (letters : List Char)
    (rest : List CStr) :
    ∀ current, scan options current (letters.map (fun x => ['-', x]) ++ rest) =
      match (steps options current (letters.map (fun x => ['-', x]))).outcome with
      | Outcome.stop reason tl =>
        ⟨(steps options current (letters.map (fun x => ['-', x]))).recorded, tl ++ rest, reason⟩
      | Outcome.proceed cur =>
        ⟨(steps options current (letters.map (fun x => ['-', x]))).recorded ++
            (scan options cur rest).params,
          (scan options cur rest).tail, (scan options cur rest).stop⟩ := by
  induction letters with
  | nil =>
    intro current
    simp [steps]
  | cons x xs ih =>
    intro current
    have e : (x :: xs).map (fun x => ['-', x]) ++ rest =
        ['-', x] :: (xs.map (fun x => ['-', x]) ++ rest) := rfl
    rw [e]
    have e2 : (x :: xs).map (fun x => ['-', x]) = ['-', x] :: xs.map (fun x => ['-', x]) := rfl
    rw [e2]
    cases hs : (step options current ['-', x]).outcome with
    | stop r t =>
      simp only [scan, tokens_of_short, steps_singleton, steps, hs, List.append_assoc]
    | proceed cur =>
      simp only [scan, tokens_of_short, steps_singleton, steps, hs]
      rw [ih cur]
      cases hs2 : (steps options cur (xs.map (fun x => ['-', x]))).outcome with
      | stop r t => simp only [List.append_assoc]
      | proceed cur2 => simp only [List.append_assoc]

/-- The header's "`-abc` can be equivalent to `-a -b -c`": in option position
a token that combines registered short names is parsed exactly as the
single-letter tokens in its place. -/
theorem scan_combined (options : List prrte_cmd_line_option_t) (tok : CStr)
    (rest : List CStr) (h : is_combined options tok = true) :
    scan options none (tok :: rest) = scan options none (short_tokens tok ++ rest) := by
  unfold short_tokens
  rw [scan_steps options (tok.drop 1) rest none]
  have e : tokens_of options none tok = (tok.drop 1).map (fun x => ['-', x]) := by
    simp [tokens_of, h, short_tokens]
  simp only [scan, e]

/-- A token that does not start with a dash names no option and combines no
short names. -/
theorem unrecognized_of_not_dash (options : List prrte_cmd_line_option_t) (c : Char)
    (cs : CStr) (h : c ≠ '-') :
    find_option options (c :: cs) = none ∧ is_combined options (c :: cs) = false := by
  constructor
  · unfold find_option
    split
    · rename_i heq
      exact absurd (List.cons.inj heq).1 h
    · rename_i heq
      exact absurd (List.cons.inj heq).1 h
    · rfl
  · unfold is_combined
    split
    · rename_i heq
      exact absurd (List.cons.inj heq).1 h
    · rfl

/-- Claim C23: when the tokens before it are all processed as options and
their parameters, `prrte_cmd_line_parse` stops at the first `--` and at the
first unrecognized token (one that names no registered option and combines no
registered short names); the tail is then the tokens after the `--`, or the
unrecognized token and those after it, in order, whatever `ignore_unknown`
and `ignore_unknown_option` are; the options recorded are those before the
stop; `prrte_cmd_line_get_tail` returns that tail; and `argv` is unchanged. -/
theorem parse_tail (cmd : prrte_cmd_line_t) (ignore_unknown ignore_unknown_option : Bool)
    (argv0 : CStr) (pre post : List CStr) (tok : CStr)
    (hpre : (scan cmd.lcl_options none pre).stop = StopReason.all_processed)
    (htok : tok = "--".toList ∨
      (find_option cmd.lcl_options tok = none ∧ is_combined cmd.lcl_options tok = false)) :
    (prrte_cmd_line_parse cmd ignore_unknown ignore_unknown_option
        (argv0 :: (pre ++ tok :: post))).cmd.lcl_tail_argv =
        (if tok = "--".toList then post else tok :: post) ∧
      (prrte_cmd_line_parse cmd ignore_unknown ignore_unknown_option
        (argv0 :: (pre ++ tok :: post))).cmd.lcl_params =
        (scan cmd.lcl_options none pre).params ∧
      (prrte_cmd_line_get_tail (some (prrte_cmd_line_parse cmd ignore_unknown
        ignore_unknown_option (argv0 :: (pre ++ tok :: post))).cmd)).2 =
        some ((if tok = "--".toList then post else tok :: post).length,
          if tok = "--".toList then post else tok :: post) ∧
      (prrte_cmd_line_parse cmd ignore_unknown ignore_unknown_option
        (argv0 :: (pre ++ tok :: post))).argv = argv0 :: (pre ++ tok :: post) ∧
      (prrte_cmd_line_parse cmd ignore_unknown ignore_unknown_option
        (argv0 :: (pre ++ tok :: post))).cmd.lcl_argv = argv0 :: (pre ++ tok :: post) := by
  have hs := scan_append cmd.lcl_options pre (tok :: post) none hpre
  have ht : scan cmd.lcl_options none (tok :: post) =
      ⟨[], if tok = "--".toList then post else tok :: post,
        if tok = "--".toList then StopReason.dash_dash else StopReason.unrecognized⟩ := by
    by_cases hd : tok = "--".toList
    · have hc : is_combined cmd.lcl_options tok = false := by
        rw [hd]
        rfl
      simp only [scan, tokens_of, hc, Bool.and_false, Bool.false_eq_true, if_false, steps, step,
        if_pos hd, List.nil_append]
    · rcases htok with h | h
      · exact absurd h hd
      · simp only [scan, tokens_of, h.2, Bool.and_false, Bool.false_eq_true, if_false, steps,
          step, if_neg hd, h.1, List.singleton_append, List.nil_append]
  rw [ht] at hs
  simp only [List.append_nil] at hs
  have e1 : (prrte_cmd_line_parse cmd ignore_unknown ignore_unknown_option
      (argv0 :: (pre ++ tok :: post))).cmd.lcl_tail_argv =
      (scan cmd.lcl_options none (pre ++ tok :: post)).tail := rfl
  have e2 : (prrte_cmd_line_parse cmd ignore_unknown ignore_unknown_option
      (argv0 :: (pre ++ tok :: post))).cmd.lcl_params =
      (scan cmd.lcl_options none (pre ++ tok :: post)).params := rfl
  have e3 : (prrte_cmd_line_get_tail (some (prrte_cmd_line_parse cmd ignore_unknown
      ignore_unknown_option (argv0 :: (pre ++ tok :: post))).cmd)).2 =
      some ((scan cmd.lcl_options none (pre ++ tok :: post)).tail.length,
        (scan cmd.lcl_options none (pre ++ tok :: post)).tail) := rfl
  rw [e1, e2, e3, hs]
  exact ⟨rfl, rfl, rfl, rfl, rfl⟩

/-- After `-hv --wd /tmp -n 4` the parser stops at `--` and hands over `a.out`
and `-h` as the tail. -/
theorem parse_tail_witness :
    (scan example_cmd.lcl_options none
        ["-hv".toList, "--wd".toList, "/tmp".toList, "-n".toList, "4".toList]).stop =
        StopReason.all_processed ∧
      (prrte_cmd_line_parse example_cmd false false
        ("prun".toList ::
          (["-hv".toList, "--wd".toList, "/tmp".toList, "-n".toList, "4".toList] ++
            "--".toList :: ["a.out".toList, "-h".toList]))).cmd.lcl_tail_argv =
        ["a.out".toList, "-h".toList] :=
  ⟨by decide,
    by
      have h := (parse_tail example_cmd false false "prun".toList
        ["-hv".toList, "--wd".toList, "/tmp".toList, "-n".toList, "4".toList]
        ["a.out".toList, "-h".toList] "--".toList (by decide) (Or.inl rfl)).1
      rw [if_pos rfl] at h
      exact h⟩

/-- The combined token `-hv` is processed as `-h -v`, the parser then stops at
the executable name, which is unrecognized, and the tail starts there,
whatever the two flags. -/
theorem parse_combined_short_names (ignore_unknown ignore_unknown_option : Bool) :
    (prrte_cmd_line_parse example_cmd ignore_unknown ignore_unknown_option
        ["prun".toList, "-hv".toList, "a.out".toList, "-h".toList]).cmd.lcl_params =
        [⟨"-h".toList, ⟨'h', some "help".toList, 0,
            prrte_cmd_line_type_t.PRRTE_CMD_LINE_TYPE_BOOL⟩, []⟩,
          ⟨"-v".toList, ⟨'v', none, 0, prrte_cmd_line_type_t.PRRTE_CMD_LINE_TYPE_BOOL⟩, []⟩] ∧
      (prrte_cmd_line_parse example_cmd ignore_unknown ignore_unknown_option
        ["prun".toList, "-hv".toList, "a.out".toList, "-h".toList]).cmd.lcl_tail_argv =
        ["a.out".toList, "-h".toList] := by
  cases ignore_unknown <;> cases ignore_unknown_option <;> decide

/-- A combined token with a letter that is not registered is unrecognized as a
whole, a parameter of an integer option that is not an integer stops the
parse, and so does an option that finds too few tokens. -/
theorem parse_other_stops :
    (scan example_cmd.lcl_options none ["-hx".toList, "a.out".toList]) =
        ⟨[], ["-hx".toList, "a.out".toList], StopReason.unrecognized⟩ ∧
      (scan example_cmd.lcl_options none ["-h".toList, "--np".toList, "four".toList]) =
        ⟨[⟨"-h".toList, ⟨'h', some "help".toList, 0,
            prrte_cmd_line_type_t.PRRTE_CMD_LINE_TYPE_BOOL⟩, []⟩],
          ["four".toList], StopReason.not_integer⟩ ∧
      (scan example_cmd.lcl_options none ["-h".toList, "--wd".toList]).stop =
        StopReason.missing_params := by
  decide

end CmdLine
